import Mathlib

/-!
# Verification of the Claude-Spec-Critic review pipeline core

A shallow embedding, in Lean, of the pipeline orchestration and
token-budget admission-control logic of the Claude-Spec-Critic
repository (`src/tokenizer.py`, `src/reviewer.py`, `src/preprocessor.py`,
`src/pipeline.py`, `src/report.py`), together with theorems settling the
specification's claims about it.

Modelling conventions:

* Python `str` values are Lean `String`s; character-level work happens on
  `String.data : List Char`.  Python's `str.strip`, `str.lower`,
  `str.find`, `str.rfind`, `str.split("\n")` and `"s".join` are embedded
  as executable functions on `List Char` (`pyStrip`, `pyLower`, `pyFind`,
  `pyRFind`, `splitCh`, `joinCh`).  The embeddings cover the ASCII
  fragment these inputs live in.
* External libraries keep their effectful or unspecified behaviour as
  parameters: the `tiktoken` encoder is a parameter `enc : String → Nat`,
  `json.loads` is a parameter `jloads : String → Except String JTop`,
  `re.finditer` is a parameter `finditer : String → String → List String`,
  and the Anthropic client's behaviour per attempt is a parameter
  `outcomes : Nat → AttemptOutcome`.
* Filesystem and network effects of the orchestrator are recorded as an
  explicit event trace (`Event`); machine integers are `Nat` (no Python
  int overflow exists), percentages are `ℚ` (Python floats, exact on the
  values that occur here).
-/

namespace SpecCritic

/-! ## Python string primitives -/

/-- The whitespace characters of Python's `str.strip()` (ASCII fragment). -/
def isPySpace (c : Char) : Bool :=
  c = ' ' || c = '\t' || c = '\n' || c = '\r' || c = '\x0b' || c = '\x0c'

/-- Python `s.strip()`. -/
def pyStrip (s : List Char) : List Char :=
  ((s.dropWhile isPySpace).reverse.dropWhile isPySpace).reverse

/-- Python `s.lower()` (ASCII fragment). -/
def pyLower (s : List Char) : List Char :=
  s.map Char.toLower

/-- Is `p` a leading segment of `l`? (Python `s.startswith(p)` at a position.) -/
def isPre : List Char → List Char → Bool
  | [], _ => true
  | _ :: _, [] => false
  | a :: as, b :: bs => if a = b then isPre as bs else false

/-- Python `s.startswith(p)`. -/
def pyStartsWith (p s : String) : Bool :=
  isPre p.data s.data

/-- Python `s.endswith(p)`. -/
def pyEndsWith (p s : String) : Bool :=
  isPre p.data.reverse s.data.reverse

/-- Python `s.find(c)`: index of the first occurrence, if any. -/
def pyFind (c : Char) (s : List Char) : Option Nat :=
  s.findIdx? (· = c)

/-- Python `s.rfind(c)`: index of the last occurrence, if any. -/
def pyRFind (c : Char) (s : List Char) : Option Nat :=
  match pyFind c s.reverse with
  | none => none
  | some i => some (s.length - 1 - i)

/-- All suffixes of a list, longest first (the whole list down to `[]`). -/
def tailsL : List Char → List (List Char)
  | [] => [[]]
  | c :: cs => (c :: cs) :: tailsL cs

/-- Does `pat` occur as a contiguous substring of `s`? (Python `pat in s`.) -/
def containsSub (pat s : List Char) : Bool :=
  (tailsL s).any (fun t => isPre pat t)

/-- Number of positions of `s` at which `pat` occurs (occurrences counted
with overlaps, as positions). -/
def countOccs (pat s : List Char) : Nat :=
  ((tailsL s).filter (fun t => isPre pat t)).length

/-- Python `s.split(sep)` for a one-character separator. -/
def splitCh (sep : Char) : List Char → List (List Char)
  | [] => [[]]
  | c :: cs =>
    if c = sep then [] :: splitCh sep cs
    else (c :: (splitCh sep cs).headI) :: (splitCh sep cs).tail

/-- Python `sep.join(parts)` for a one-character separator. -/
def joinCh (sep : Char) : List (List Char) → List Char
  | [] => []
  | [l] => l
  | l :: ls => l ++ sep :: joinCh sep ls

/-- Lexicographic comparison of code-point sequences (Python `str` order). -/
def strLeB : List Char → List Char → Bool
  | [], _ => true
  | _ :: _, [] => false
  | x :: xs, y :: ys =>
    if x = y then strLeB xs ys else decide (x.val < y.val)

/-- Insert into a sorted list (helper for Python `sorted`). -/
def insertStr (x : String) : List String → List String
  | [] => [x]
  | y :: ys => if strLeB x.data y.data then x :: y :: ys else y :: insertStr x ys

/-- Python's thousands-separator formatting `f"{n:,}"`. -/
def commaGroup (ds : List Char) : List Char :=
  if _h : ds.length ≤ 3 then ds
  else ds.take 3 ++ ',' :: commaGroup (ds.drop 3)
termination_by ds.length
decreasing_by
  simp only [List.length_drop]
  omega

/-- Python `f"{n:,}"` for a natural number. -/
def pyCommaFmt (n : Nat) : String :=
  String.mk ((commaGroup (toString n).data.reverse).reverse)

/-! ## Token estimator (src/tokenizer.py) -/

def MAX_CONTEXT_TOKENS : Nat := 200000

/-- Reserved room for system prompt + response. -/
def SAFETY_BUFFER : Nat := 50000

def RECOMMENDED_MAX : Nat := MAX_CONTEXT_TOKENS - SAFETY_BUFFER

/-- Token count for a single piece of content (`TokenCount` dataclass). -/
structure TokenCount where
  name : String
  tokens : Nat
  chars : Nat
deriving Repr, DecidableEq

/-- The three tiers of `warning_message` in `analyze_token_usage`.  The
Python code stores formatted message strings; the embedding keeps the
tier together with the total it reports, which determines the string. -/
inductive Warning where
  | critical (total : Nat)
  | overRecommended (total : Nat)
  | approaching (total : Nat)
deriving Repr, DecidableEq

/-- Summary of token counts for a review job (`TokenSummary` dataclass). -/
structure TokenSummary where
  items : List TokenCount
  system_prompt_tokens : Nat
  total_tokens : Nat
  within_limit : Bool
  warning_message : Option Warning
deriving Repr, DecidableEq

def TokenSummary.content_tokens (s : TokenSummary) : Nat :=
  (s.items.map (·.tokens)).sum

/-- `analyze_token_usage` from src/tokenizer.py.  The tiktoken encoder is
external; it enters as the parameter `enc` (`count = len(encoder.encode(text))`).
The `0.8 * RECOMMENDED_MAX` float threshold is exact (`120000.0`), embedded
as `10 * total > 8 * RECOMMENDED_MAX`. -/
def analyze_token_usage (enc : String → Nat) (spec_contents : List (String × String))
    (system_prompt : String) : TokenSummary :=
  let system_tokens := enc system_prompt
  let items := spec_contents.map fun p => TokenCount.mk p.1 (enc p.2) p.2.length
  let content_tokens := (items.map (·.tokens)).sum
  let total_tokens := system_tokens + content_tokens
  let within_limit := decide (total_tokens ≤ RECOMMENDED_MAX)
  let warning_message :=
    if MAX_CONTEXT_TOKENS < total_tokens then some (Warning.critical total_tokens)
    else if RECOMMENDED_MAX < total_tokens then some (Warning.overRecommended total_tokens)
    else if 8 * RECOMMENDED_MAX < 10 * total_tokens then some (Warning.approaching total_tokens)
    else none
  ⟨items, system_tokens, total_tokens, within_limit, warning_message⟩

/-! ## Review invoker: response parsing (src/reviewer.py)

`json.loads` is an external library function; it enters as a parameter
`jloads : String → Except String JTop`.  The embedding of its result keeps
exactly the structure `parse_findings` inspects: whether the top level is a
list, whether each element is a dict, and the values of the keys the code
reads.  A dict is represented by its final key/value bindings (as
`json.loads` leaves them), and a JSON value is kept as `null`, a string, or
an opaque `other` (numbers, booleans, nested values — the code never
inspects those beyond storing them). -/

instance {ε α : Type} [DecidableEq ε] [DecidableEq α] : DecidableEq (Except ε α) := fun x y =>
  match x, y with
  | .error e, .error e' =>
    if h : e = e' then .isTrue (by rw [h]) else .isFalse (by simp [h])
  | .error _, .ok _ => .isFalse (by simp)
  | .ok _, .error _ => .isFalse (by simp)
  | .ok a, .ok a' =>
    if h : a = a' then .isTrue (by rw [h]) else .isFalse (by simp [h])

/-- A JSON value as far as `parse_findings` looks at one. -/
inductive JVal where
  | null
  | str (s : String)
  | other
deriving Repr, DecidableEq

/-- An element of the parsed top-level array. -/
inductive JElem where
  | obj (fields : List (String × JVal))
  | nonObj
deriving Repr, DecidableEq

/-- The parsed top level.  `nonArr` keeps the Python type name used in the
error message `f"Expected JSON array, got: {type(data)}"`. -/
inductive JTop where
  | arr (items : List JElem)
  | nonArr (typeName : String)
deriving Repr, DecidableEq

/-- One review finding (`Finding` dataclass, src/reviewer.py lines 16-27).
Python stores whatever values the JSON held, so every field is a `JVal`;
the Python field `section` is `sectionField` here (`section` is reserved
in Lean). -/
structure Finding where
  severity : JVal
  fileName : JVal
  sectionField : JVal
  issue : JVal
  actionType : JVal
  existingText : JVal
  replacementText : JVal
  codeReference : JVal
deriving Repr, DecidableEq

/-- Python `item.get(key, dflt)` on a dict given by its bindings. -/
def jget (fields : List (String × JVal)) (key : String) (dflt : JVal) : JVal :=
  match fields.lookup key with
  | some v => v
  | none => dflt

/-- The per-item conversion inside `parse_findings` (lines 130-145): a dict
becomes a `Finding` with the code's defaults for missing keys; a non-dict
raises inside the `try` and is skipped by the `except ... continue`. -/
def findingOfItem : JElem → Option Finding
  | .obj fields => some
      { severity := jget fields "severity" (.str "MEDIUM")
        fileName := jget fields "fileName" (.str "Unknown")
        sectionField := jget fields "section" (.str "Unknown")
        issue := jget fields "issue" (.str "No description")
        actionType := jget fields "actionType" (.str "EDIT")
        existingText := jget fields "existingText" .null
        replacementText := jget fields "replacementText" .null
        codeReference := jget fields "codeReference" .null }
  | .nonObj => none

/-- Markdown-fence removal at the top of `parse_findings` (lines 100-107):
on a text starting with three backticks, drop the first line and a final
line whose strip is three backticks, and rejoin. -/
def stripFencesC (t : List Char) : List Char :=
  if isPre "```".data t then
    let lines := (splitCh '\n' t).drop 1
    let lines :=
      match lines.getLast? with
      | some lst => if pyStrip lst = "```".data then lines.dropLast else lines
      | none => lines
    joinCh '\n' lines
  else t

/-- The text `parse_findings` scans for array delimiters: the response,
stripped, with markdown fences removed. -/
def parsePreppedText (response_text : String) : List Char :=
  stripFencesC (pyStrip response_text.data)

/-- The parse-failure message of the delimiter-free branch (line 117). -/
def noArrayMsg (t : List Char) : String :=
  "Could not find JSON array in response: " ++ String.mk (t.take 200) ++ "..."

/-- `parse_findings` from src/reviewer.py (lines 83-147), with `json.loads`
as the parameter `jloads`.  `.error` is the `ValueError` the Python raises. -/
def parse_findings (jloads : String → Except String JTop) (response_text : String) :
    Except String (List Finding) :=
  let text := parsePreppedText response_text
  match pyFind '[' text, pyRFind ']' text with
  | some start_idx, some end_idx =>
    let json_str := String.mk ((text.drop start_idx).take (end_idx + 1 - start_idx))
    (match jloads json_str with
     | .error e => .error ("Invalid JSON in response: " ++ e)
     | .ok (.nonArr ty) => .error ("Expected JSON array, got: " ++ ty)
     | .ok (.arr items) => .ok (items.filterMap findingOfItem))
  | _, _ =>
    if containsSub "no issues".data (pyLower text) = true ∨ pyStrip text = "[]".data then
      .ok []
    else
      .error (noArrayMsg text)

/-- The Finding schema invariant stated by the specification:
`actionType == "ADD" ⇒ existingText is null` and
`actionType == "DELETE" ⇒ replacementText is null`. -/
def Finding.invariantHolds (f : Finding) : Prop :=
  (f.actionType = .str "ADD" → f.existingText = .null) ∧
  (f.actionType = .str "DELETE" → f.replacementText = .null)

/-- A response array item respects the ADD/DELETE nullity rules the system
prompt demands of the model. -/
def itemNullityOK : JElem → Prop
  | .obj fields =>
      (jget fields "actionType" (.str "EDIT") = .str "ADD" →
        jget fields "existingText" .null = .null) ∧
      (jget fields "actionType" (.str "EDIT") = .str "DELETE" →
        jget fields "replacementText" .null = .null)
  | .nonObj => True

instance : DecidablePred Finding.invariantHolds := fun f => by
  unfold Finding.invariantHolds
  infer_instance

instance : DecidablePred itemNullityOK := fun it => by
  cases it <;> unfold itemNullityOK <;> infer_instance

/-- A concrete stand-in for `json.loads` agreeing with it on the one input
used in the counterexamples: the array `[{"actionType": "ADD",
"existingText": "x"}]` parses to one dict with those two bindings. -/
def jloadsCex (s : String) : Except String JTop :=
  if s = "[\x7b\"actionType\": \"ADD\", \"existingText\": \"x\"\x7d]" then
    .ok (.arr [.obj [("actionType", .str "ADD"), ("existingText", .str "x")]])
  else
    .error "Expecting value: line 1 column 1 (char 0)"

/-- The finding Python builds from that counterexample item. -/
def cexFinding : Finding :=
  { severity := .str "MEDIUM"
    fileName := .str "Unknown"
    sectionField := .str "Unknown"
    issue := .str "No description"
    actionType := .str "ADD"
    existingText := .str "x"
    replacementText := .null
    codeReference := .null }

/-- A concrete well-behaved stand-in for `json.loads`, used to witness the
amended C5: every string parses to a one-item array whose item obeys the
nullity rules. -/
def jloadsW (_s : String) : Except String JTop :=
  .ok (.arr [.obj [("actionType", .str "ADD"), ("issue", .str "Missing requirement")]])

/-! ## Review invoker: models and per-attempt behaviour (src/reviewer.py) -/

def MODEL_SONNET : String := "claude-sonnet-4-5-20250929"

def MODEL_OPUS : String := "claude-opus-4-5-20251101"

/-- What the Anthropic client does on one invocation attempt (external
behaviour, a parameter of the embedding).  `success` carries the response
text assembled from the message's text blocks together with the usage
counts; each error constructor carries the exception's display string
(what Python's `f"{e}"` produces). -/
inductive AttemptOutcome where
  | success (responseText : String) (inputTokens outputTokens : Nat)
  | rateLimit (msg : String)
  | connError (msg : String)
  | apiError (msg : String)
deriving Repr, DecidableEq

/-- Is the outcome one of the two retried (transient) exception classes? -/
def AttemptOutcome.isTransient : AttemptOutcome → Bool
  | .rateLimit _ => true
  | .connError _ => true
  | _ => false

def AttemptOutcome.errMsg : AttemptOutcome → String
  | .success _ _ _ => ""
  | .rateLimit m => m
  | .connError m => m
  | .apiError m => m

/-- `ReviewResult` dataclass (src/reviewer.py lines 29-39).  The wall-clock
field `elapsed_seconds` is not modelled. -/
structure ReviewResult where
  findings : List Finding
  raw_response : String
  model : String
  input_tokens : Nat
  output_tokens : Nat
  thinking_tokens : Nat
  error : Option String
deriving Repr, DecidableEq

/-- `ReviewResult(model=model)`: the dataclass defaults. -/
def emptyResult (model : String) : ReviewResult :=
  ⟨[], "", model, 0, 0, 0, none⟩

/-- The `get_api_key` error message (src/reviewer.py lines 71-80). -/
def apiKeyMissingMsg : String :=
  "ANTHROPIC_API_KEY environment variable not set.\n" ++
  "Set it with: set ANTHROPIC_API_KEY=your-key-here (Windows CMD)\n" ++
  "         or: $env:ANTHROPIC_API_KEY='your-key-here' (PowerShell)"

/-- The message of the retry-exhaustion error (line 295),
`f"Failed after {max_retries} attempts. Last error: {last_error}"`. -/
def exhaustedMsg (maxRetries : Nat) (lastErr : Option String) : String :=
  "Failed after " ++ toString maxRetries ++ " attempts. Last error: " ++ lastErr.getD "None"

/-! ## Alert detector (src/preprocessor.py) -/

/-- One alert dict produced by `detect_leed_references` /
`detect_placeholders`: keys filename, line, type, text, context. -/
structure Alert where
  filename : String
  line : Nat
  type : String
  text : String
  context : String
deriving Repr, DecidableEq

/-- Regex source `\[(?:INSERT|SPECIFY|VERIFY|COORDINATE|SELECT|INCLUDE)[^\]]*\]`. -/
def patBracketedPH : String := "\\[(?:INSERT|SPECIFY|VERIFY|COORDINATE|SELECT|INCLUDE)[^\\]]*\\]"

/-- Regex source `<(?:INSERT|SPECIFY|VERIFY|COORDINATE|SELECT|INCLUDE)[^>]*>`. -/
def patAnglePH : String := "<(?:INSERT|SPECIFY|VERIFY|COORDINATE|SELECT|INCLUDE)[^>]*>"

/-- Regex source for runs of three or more underscores. -/
def patUnderscores : String := "_\x7b3,\x7d"

/-- Regex source `\[\s*\]`. -/
def patEmptyBrackets : String := "\\[\\s*\\]"

/-- Regex source `<\s*>`. -/
def patEmptyAngle : String := "<\\s*>"

/-- Regex source `\[TBD\]`. -/
def patTBD : String := "\\[TBD\\]"

/-- Regex source `\[TBC\]`. -/
def patTBC : String := "\\[TBC\\]"

/-- Regex source `\[XXX+\]`. -/
def patXXX : String := "\\[XXX+\\]"

/-- Regex source `(?i)\b(?:xx+|___+)\s*(?:inches|feet|mm|cfm|gpm|degrees|psi|kpa)\b`. -/
def patNumericPH : String := "(?i)\\b(?:xx+|___+)\\s*(?:inches|feet|mm|cfm|gpm|degrees|psi|kpa)\\b"

/-- `PLACEHOLDER_ALERT_PATTERNS` (src/preprocessor.py lines 79-89). -/
def PLACEHOLDER_ALERT_PATTERNS : List (String × String) :=
  [(patBracketedPH, "Bracketed placeholder"),
   (patAnglePH, "Angle bracket placeholder"),
   (patUnderscores, "Blank line placeholder"),
   (patEmptyBrackets, "Empty brackets"),
   (patEmptyAngle, "Empty angle brackets"),
   (patTBD, "TBD marker"),
   (patTBC, "TBC marker"),
   (patXXX, "XXX placeholder"),
   (patNumericPH, "Numeric placeholder")]

/-- `LEED_PATTERNS` (src/preprocessor.py lines 70-76), with the regex
sources kept verbatim as the pattern keys. -/
def LEED_PATTERNS : List (String × String) :=
  [("(?i)\\bLEED\\b", "LEED reference"),
   ("(?i)\\bUSGBC\\b", "USGBC reference"),
   ("(?i)\\bU\\.S\\.\\s*Green\\s*Building\\s*Council\\b", "USGBC reference"),
   ("(?i)\\b(?:EQ|MR|SS|WE|EA|ID|IN|RP)\\s*(?:Credit|Prerequisite)\\s*[\\d\\.]+",
     "LEED credit reference"),
   ("(?i)\\bgreen\\s*building\\s*certification\\b", "Green building certification")]

/-- `enumerate(lines, 1)`. -/
def enumerate1 {α : Type} (l : List α) : List (Nat × α) :=
  l.enum.map (fun p => (p.1 + 1, p.2))

/-- The alerts one line contributes, before deduplication: per pattern,
per match, a dict with the line number and a `context` of the stripped
line truncated to 100 characters. -/
def lineAlerts (finditer : String → String → List String)
    (patterns : List (String × String)) (filename : String) (lineNum : Nat)
    (line : String) : List Alert :=
  patterns.flatMap fun pd =>
    (finditer pd.1 line).map fun m =>
      ⟨filename, lineNum, pd.2, m, String.mk ((pyStrip line.data).take 100)⟩

/-- The full pre-deduplication alert list: `content.split('\n')`,
enumerated from 1, each line scanned against every pattern. -/
def rawAlerts (finditer : String → String → List String)
    (patterns : List (String × String)) (content filename : String) : List Alert :=
  (enumerate1 ((splitCh '\n' content.data).map String.mk)).flatMap fun p =>
    lineAlerts finditer patterns filename p.1 p.2

/-- The `seen`-set deduplication loop shared by both detectors: keep the
first alert for each key, preserving order. -/
def dedupGo {K : Type} [DecidableEq K] (key : Alert → K) :
    List K → List Alert → List Alert → List Alert
  | _, acc, [] => acc
  | seen, acc, a :: rest =>
    if key a ∈ seen then dedupGo key seen acc rest
    else dedupGo key (key a :: seen) (acc ++ [a]) rest

def dedupBy {K : Type} [DecidableEq K] (key : Alert → K) (l : List Alert) : List Alert :=
  dedupGo key [] [] l

/-- `detect_leed_references` (lines 92-127): deduplicates on
`(filename, line, type)`. -/
def detect_leed_references (finditer : String → String → List String)
    (content filename : String) : List Alert :=
  dedupBy (fun a => (a.filename, a.line, a.type))
    (rawAlerts finditer LEED_PATTERNS content filename)

/-- `detect_placeholders` (lines 130-165): deduplicates on
`(filename, line, text)` — the matched text, not the pattern label. -/
def detect_placeholders (finditer : String → String → List String)
    (content filename : String) : List Alert :=
  dedupBy (fun a => (a.filename, a.line, a.text))
    (rawAlerts finditer PLACEHOLDER_ALERT_PATTERNS content filename)

/-! ### A concrete `re.finditer` for the placeholder patterns

Scanners implementing Python `re.finditer`'s left-to-right, non-overlapping
matching for each placeholder regex (ASCII fragment), used to instantiate
the external `finditer` parameter on concrete counterexample inputs. -/

/-- Split at the first occurrence of `c`: `some (before, after)`, with `c`
in neither boundary position. -/
def splitAtFirst (c : Char) : List Char → Option (List Char × List Char)
  | [] => none
  | x :: xs =>
    if x = c then some ([], xs)
    else (splitAtFirst c xs).map (fun p => (x :: p.1, p.2))

/-- Left-to-right non-overlapping scan driver.  `matchAt prev s` attempts a
match at the head of `s` given the preceding character (for `\b`); a match
consumes at least one character, so `fuel = s.length` suffices. -/
def scanGo (matchAt : Option Char → List Char → Option (List Char × List Char)) :
    Nat → Option Char → List Char → List (List Char)
  | 0, _, _ => []
  | _, _, [] => []
  | fuel + 1, prev, c :: cs =>
    match matchAt prev (c :: cs) with
    | some (m, rest) => m :: scanGo matchAt fuel m.getLast? rest
    | none => scanGo matchAt fuel (some c) cs

def scan (matchAt : Option Char → List Char → Option (List Char × List Char))
    (s : List Char) : List (List Char) :=
  scanGo matchAt s.length none s

/-- The bracketed-directive keywords shared by the first two placeholder
patterns. -/
def phKeywords : List String := ["INSERT", "SPECIFY", "VERIFY", "COORDINATE", "SELECT", "INCLUDE"]

/-- `\[(?:KW...)[^\]]*\]` (and the `<...>` variant): an opening delimiter,
a keyword, then everything up to the first closing delimiter. -/
def matchKeywordDelim (op cl : Char) (s : List Char) : Option (List Char × List Char) :=
  match s with
  | [] => none
  | x :: rest =>
    if x = op ∧ phKeywords.any (fun kw => isPre kw.data rest) then
      match splitAtFirst cl rest with
      | some (before, after) => some (op :: (before ++ [cl]), after)
      | none => none
    else none

/-- A maximal run of `c` of length at least `minLen` (for `_{3,}`). -/
def matchRunMin (c : Char) (minLen : Nat) (s : List Char) : Option (List Char × List Char) :=
  let run := s.takeWhile (fun x => x = c)
  if minLen ≤ run.length ∧ 0 < run.length then some (run, s.drop run.length) else none

/-- `\[\s*\]` (and the `<\s*>` variant). -/
def matchEmptyDelim (op cl : Char) (s : List Char) : Option (List Char × List Char) :=
  match s with
  | [] => none
  | x :: rest =>
    if x = op then
      let ws := rest.takeWhile isPySpace
      match rest.drop ws.length with
      | y :: rest2 => if y = cl then some (op :: (ws ++ [cl]), rest2) else none
      | [] => none
    else none

/-- A literal pattern such as `\[TBD\]`. -/
def matchLit (lit : String) (s : List Char) : Option (List Char × List Char) :=
  if isPre lit.data s then some (lit.data, s.drop lit.data.length) else none

/-- `\[XXX+\]`: `[`, three or more `X`, `]`. -/
def matchXXXBracket (s : List Char) : Option (List Char × List Char) :=
  match s with
  | [] => none
  | x :: rest =>
    if x = '[' then
      let run := rest.takeWhile (fun c => c = 'X')
      if 3 ≤ run.length then
        match rest.drop run.length with
        | y :: rest2 => if y = ']' then some ('[' :: (run ++ [']']), rest2) else none
        | [] => none
      else none
    else none

/-- Regex `\w` (ASCII fragment). -/
def isWordChar (c : Char) : Bool := c.isAlphanum || c = '_'

def numericUnits : List String := ["inches", "feet", "mm", "cfm", "gpm", "degrees", "psi", "kpa"]

/-- `(?i)\b(?:xx+|___+)\s*(?:inches|...)\b`: a word boundary, a maximal
run of two or more x/X or three or more underscores, optional whitespace,
a unit word (case-insensitive, the alternatives have pairwise distinct
first letters, so at most one can apply), and a trailing word boundary. -/
def matchNumericPH (prev : Option Char) (s : List Char) : Option (List Char × List Char) :=
  let boundaryOK := match prev with | none => true | some p => !(isWordChar p)
  if boundaryOK = true then
    let xrun := s.takeWhile (fun c => c = 'x' ∨ c = 'X')
    let urun := s.takeWhile (fun c => c = '_')
    let lead := if 2 ≤ xrun.length then some xrun
      else if 3 ≤ urun.length then some urun else none
    match lead with
    | none => none
    | some run =>
      let rest1 := s.drop run.length
      let ws := rest1.takeWhile isPySpace
      let rest2 := rest1.drop ws.length
      match numericUnits.find? (fun u => pyLower (rest2.take u.data.length) = u.data) with
      | none => none
      | some u =>
        let unitChars := rest2.take u.data.length
        let rest3 := rest2.drop u.data.length
        let tailOK := match rest3.head? with | none => true | some c2 => !(isWordChar c2)
        if tailOK = true then some (run ++ ws ++ unitChars, rest3) else none
  else none

/-- A concrete instantiation of the external `finditer` parameter,
implementing Python `re.finditer` for the placeholder regex sources of
src/preprocessor.py (any other pattern yields no matches). -/
def reFinditer (pattern line : String) : List String :=
  let s := line.data
  let res : List (List Char) :=
    if pattern = patBracketedPH then scan (fun _ t => matchKeywordDelim '[' ']' t) s
    else if pattern = patAnglePH then scan (fun _ t => matchKeywordDelim '<' '>' t) s
    else if pattern = patUnderscores then scan (fun _ t => matchRunMin '_' 3 t) s
    else if pattern = patEmptyBrackets then scan (fun _ t => matchEmptyDelim '[' ']' t) s
    else if pattern = patEmptyAngle then scan (fun _ t => matchEmptyDelim '<' '>' t) s
    else if pattern = patTBD then scan (fun _ t => matchLit "[TBD]" t) s
    else if pattern = patTBC then scan (fun _ t => matchLit "[TBC]" t) s
    else if pattern = patXXX then scan (fun _ t => matchXXXBracket t) s
    else if pattern = patNumericPH then scan matchNumericPH s
    else []
  res.map String.mk

/-! ## Combining specs with file delimiters (src/pipeline.py lines 69-74) -/

def FILE_DELIM_LEAD : String := "===== FILE: "

def FILE_DELIM_TRAIL : String := " ====="

/-- The delimiter header line for one file,
`f"===== FILE: {filename} ====="`. -/
def headerC (fn : List Char) : List Char :=
  FILE_DELIM_LEAD.data ++ fn ++ FILE_DELIM_TRAIL.data

/-- One block of the combined text, `f"===== FILE: {filename} =====\n{content}"`. -/
def blockC (p : List Char × List Char) : List Char :=
  headerC p.1 ++ '\n' :: p.2

/-- `sep.join(parts)` for a multi-character separator. -/
def joinSep (sep : List Char) : List (List Char) → List Char
  | [] => []
  | [l] => l
  | l :: ls => l ++ sep ++ joinSep sep ls

/-- The combined text at character level: `"\n\n".join(blocks)`. -/
def combineC (specs : List (List Char × List Char)) : List Char :=
  joinSep ['\n', '\n'] (specs.map blockC)

/-- `_combine_specs` from src/pipeline.py: specs as (filename, content)
pairs, in the order the pipeline holds them. -/
def _combine_specs (specs : List (String × String)) : String :=
  String.mk (combineC (specs.map fun s => (s.1.data, s.2.data)))

/-! ### Splitting the combined text back (the spec's round-trip)

The following definitions follow the specification's words ("splitting on
this delimiter must recover exactly the N original texts in order"), not
any repository function: they are the decode side of the round-trip claim,
to be compared against `_combine_specs`. -/

/-- Recognise a delimiter header line and extract its filename: the line
must carry the lead marker as a prefix and the trail marker as a suffix,
and the filename is what stands between them. -/
def isHeaderLine (l : List Char) : Option (List Char) :=
  if isPre FILE_DELIM_LEAD.data l then
    if isPre FILE_DELIM_TRAIL.data.reverse (l.drop FILE_DELIM_LEAD.data.length).reverse then
      some ((l.drop FILE_DELIM_LEAD.data.length).take
        ((l.drop FILE_DELIM_LEAD.data.length).length - FILE_DELIM_TRAIL.data.length))
    else none
  else none

/-- Group the lines of the combined text by delimiter header: material
before the first header is dropped, and each header starts a group whose
body collects the following non-header lines (in reverse while scanning). -/
def parseGroupsGo : List (List Char) → Option (List Char × List (List Char)) →
    List (List Char × List (List Char))
  | [], none => []
  | [], some g => [(g.1, g.2.reverse)]
  | l :: ls, cur =>
    match isHeaderLine l with
    | some fn2 =>
      match cur with
      | none => parseGroupsGo ls (some (fn2, []))
      | some g => (g.1, g.2.reverse) :: parseGroupsGo ls (some (fn2, []))
    | none =>
      match cur with
      | none => parseGroupsGo ls none
      | some g => parseGroupsGo ls (some (g.1, l :: g.2))

/-- Drop one trailing empty line (the one the `"\n\n"` joiner inserts
after every block except the last). -/
def dropTrailingEmpty (ls : List (List Char)) : List (List Char) :=
  if ls.getLast? = some ([] : List Char) then ls.dropLast else ls

/-- Rebuild each group's content: every group but the last loses the
separator-contributed empty line, and the lines are rejoined with `\n`. -/
def finalizeGroups : List (List Char × List (List Char)) → List (List Char × List Char)
  | [] => []
  | [g] => [(g.1, joinCh '\n' g.2)]
  | g :: gs => (g.1, joinCh '\n' (dropTrailingEmpty g.2)) :: finalizeGroups gs

/-- Split a combined text on the delimiter headers, recovering
(filename, content) pairs. -/
def splitCombined (text : String) : List (String × String) :=
  (finalizeGroups (parseGroupsGo (splitCh '\n' text.data) none)).map
    fun g => (String.mk g.1, String.mk g.2)

/-- The line groups the combined text of these specs decomposes into: one
group per spec, holding its content's lines, with the separator's empty
line attached to every group except the last. -/
def groupsOf : List (List Char × List Char) → List (List Char × List (List Char))
  | [] => []
  | [p] => [(p.1, splitCh '\n' p.2)]
  | p :: q :: rest => (p.1, splitCh '\n' p.2 ++ [[]]) :: groupsOf (q :: rest)

/-! ## The run orchestrator (src/pipeline.py) as a trace-producing function

Every filesystem and network effect of `run_review` is recorded as an
`Event`, in program order; the function's result is the raised error or the
returned `PipelineOutputs`.  Paths are lists of components (`Path` objects
under `/`); artifact contents are kept structurally (the information the
Python serialises into each file), since no claim depends on the JSON
rendering itself. -/

/-- What a written file contains, structurally. -/
inductive Artifact where
  | tokenSummaryJson (model : String) (recommendedMax : Nat) (summary : TokenSummary)
  | inputsCombined (text : String)
  | findingsJson (model : String) (dryRun : Bool) (inputTokens outputTokens : Nat)
      (findings : List Finding) (leed placeholder : List Alert)
  | rawResponse (text : String)
  | errorTxt (text : String)
  | reportDocx (result : ReviewResult) (files : List String) (leed placeholder : List Alert)
deriving DecidableEq

/-- One observable effect of a run, in program order.  `invokeReviewer`
marks entry into `review_specs`; `attemptCall` is one outbound API
request; `sleep` is a backoff wait in seconds. -/
inductive Event where
  | mkRunDir (path : List String)
  | writeFile (path : List String) (content : Artifact)
  | logMsg (msg : String)
  | progressEv (percent : ℚ) (msg : String)
  | invokeReviewer
  | attemptCall (model : String)
  | sleep (seconds : Nat)
deriving DecidableEq

/-- The write events of a trace, with their paths and contents. -/
def writesOf (evs : List Event) : List (List String × Artifact) :=
  evs.filterMap fun e =>
    match e with
    | .writeFile p a => some (p, a)
    | _ => none

/-- Number of outbound API requests in a trace. -/
def callCount (evs : List Event) : Nat :=
  evs.countP fun e =>
    match e with
    | .attemptCall _ => true
    | _ => false

/-! ### The retry loop of `review_specs` (src/reviewer.py lines 150-297) -/

/-- The `for attempt in range(max_retries)` loop: `k` is the attempt index,
the second argument the remaining iterations.  A transient outcome sleeps
`2 ** attempt * 10` (rate limit) or `2 ** attempt * 5` (connection error)
seconds and retries; an API error or a terminal attempt ends the loop. -/
def reviewAttempts (jloads : String → Except String JTop)
    (outcomes : Nat → AttemptOutcome) (model : String) (maxRetries : Nat) :
    Nat → Nat → Option String → List Event × ReviewResult
  | _, 0, lastErr =>
    ([], { emptyResult model with error := some (exhaustedMsg maxRetries lastErr) })
  | k, remaining + 1, _ =>
    match outcomes k with
    | .success txt iT oT =>
      ([.attemptCall model],
        match parse_findings jloads txt with
        | .ok fs => ⟨fs, txt, model, iT, oT, 0, none⟩
        | .error e => ⟨[], txt, model, iT, oT, 0, some ("Failed to parse response: " ++ e)⟩)
    | .rateLimit m =>
      let r := reviewAttempts jloads outcomes model maxRetries (k + 1) remaining (some m)
      (.attemptCall model :: .sleep (2 ^ k * 10) :: r.1, r.2)
    | .connError m =>
      let r := reviewAttempts jloads outcomes model maxRetries (k + 1) remaining (some m)
      (.attemptCall model :: .sleep (2 ^ k * 5) :: r.1, r.2)
    | .apiError m =>
      ([.attemptCall model], { emptyResult model with error := some ("API error: " ++ m) })

/-- `review_specs` from src/reviewer.py.  The Anthropic client is external:
`outcomes k` is what attempt `k` does, `apiKey` is the environment's
`ANTHROPIC_API_KEY`.  The extended-thinking switch to Opus (lines 173-177)
is included; the combined content only shapes the request body, which the
`outcomes` parameter abstracts. -/
def review_specs (jloads : String → Except String JTop) (apiKey : Option String)
    (outcomes : Nat → AttemptOutcome) (_combined_content : String)
    (model : String) (use_thinking : Bool) (max_retries : Nat) :
    List Event × ReviewResult :=
  let model := if use_thinking = true ∧ model ≠ MODEL_OPUS then MODEL_OPUS else model
  match apiKey with
  | none => ([], { emptyResult model with error := some apiKeyMissingMsg })
  | some _ => reviewAttempts jloads outcomes model max_retries 0 max_retries none

/-! ### The orchestrator -/

/-- The name `MODEL_OPUS_45` that src/pipeline.py line 13 imports from
src/reviewer.py.  No binding of that name exists in reviewer.py (see the
import-resolution model below); the value used here is `MODEL_OPUS`, the
binding the import evidently intends (gui.py displays it as the model
label). -/
def MODEL_OPUS_45 : String := MODEL_OPUS

/-- `generate_report` (src/report.py lines 234-322) joins a further
`"report.docx"` onto the `output_path` argument before saving
(`report_path = output_path / "report.docx"; doc.save(report_path)`),
so this is the path the one report document is written to. -/
def generate_report_save_path (output_path : List String) : List String :=
  output_path ++ ["report.docx"]

/-- Insert a (filename, content) pair by filename order. -/
def insertPair (x : String × String) : List (String × String) → List (String × String)
  | [] => [x]
  | y :: ys => if strLeB x.1.data y.1.data then x :: y :: ys else y :: insertPair x ys

/-- Python `sorted` by filename (insertion sort). -/
def sortPairs : List (String × String) → List (String × String)
  | [] => []
  | x :: xs => insertPair x (sortPairs xs)

/-- `_get_docx_files` (src/pipeline.py lines 58-59): the directory entries
matching `*.docx`, excluding editor lock files starting with `~$`, sorted
by name.  The entry's second component is the text its extraction yields
(extraction via python-docx is external). -/
def eligibleSpecs (listing : List (String × String)) : List (String × String) :=
  sortPairs (listing.filter fun p => pyEndsWith ".docx" p.1 && !(pyStartsWith "~$" p.1))

/-- The typed errors `run_review` raises: `FileNotFoundError` (no eligible
files), `ValueError` (token budget), `RuntimeError` (invocation failure). -/
inductive PipelineError where
  | noFilesFound (inputDir : List String)
  | tokenLimitExceeded (total recommendedMax : Nat)
  | invocationFailed (msg : String)
deriving Repr, DecidableEq

/-- The message string of each raised error (f-strings of src/pipeline.py
lines 96 and 149-152). -/
def PipelineError.message : PipelineError → String
  | .noFilesFound d => "No .docx files found in: " ++ String.intercalate "/" d
  | .tokenLimitExceeded total m =>
    "Token limit exceeded: " ++ pyCommaFmt total ++ " > " ++ pyCommaFmt m ++
      ". Split the input specs and re-run."
  | .invocationFailed m => m

/-- `PipelineOutputs` dataclass (src/pipeline.py lines 29-39). -/
structure PipelineOutputs where
  run_dir : List String
  report_docx : List String
  findings_json : List String
  raw_response_txt : List String
  inputs_combined_txt : List String
  token_summary_json : List String
  review_result : Option ReviewResult
  leed_alert_count : Nat
  placeholder_alert_count : Nat
deriving DecidableEq

/-- `run_review` from src/pipeline.py (lines 77-255), as a trace-producing
function.  External behaviour enters as parameters (`enc` for tiktoken,
`finditer` for `re`, `jloads` for `json.loads`, `apiKey` and `outcomes`
for the Anthropic client, `timestamp` for `datetime.now`, `system_prompt`
for the fixed prompt configuration of src/prompts.py, and `listing` for
the input directory's entries with the text their extraction yields).
Progress percentages are the exact rationals of the Python floats on the
arguments that occur. -/
def run_review (enc : String → Nat) (finditer : String → String → List String)
    (jloads : String → Except String JTop) (apiKey : Option String)
    (outcomes : Nat → AttemptOutcome) (system_prompt : String)
    (timestamp : String) (input_dir : List String)
    (listing : List (String × String)) (output_dir : List String)
    (dry_run : Bool) (_verbose : Bool) :
    List Event × Except PipelineError PipelineOutputs :=
  let run_dir := output_dir ++ ["review_" ++ timestamp]
  let ev0 : List Event := [.mkRunDir run_dir]
  let docx_files := eligibleSpecs listing
  if docx_files = [] then
    (ev0, .error (.noFilesFound input_dir))
  else
    let total := docx_files.length
    let extractEvs : List Event := (enumerate1 docx_files).flatMap fun p =>
      [.logMsg ("Loading: " ++ p.2.1),
       .progressEv ((p.1 : ℚ) / (total : ℚ) * 35)
         ("Loaded " ++ toString p.1 ++ "/" ++ toString total)]
    let leed_alerts := docx_files.flatMap fun s => detect_leed_references finditer s.2 s.1
    let placeholder_alerts := docx_files.flatMap fun s => detect_placeholders finditer s.2 s.1
    let token_summary := analyze_token_usage enc docx_files system_prompt
    let token_summary_json := run_dir ++ ["token_summary.json"]
    let combined := _combine_specs docx_files
    let inputs_combined_txt := run_dir ++ ["inputs_combined.txt"]
    let ev1 := ev0 ++ [Event.progressEv 0 "Extracting DOCX text..."] ++ extractEvs ++
      [Event.progressEv 40 "Analyzing tokens...",
       Event.writeFile token_summary_json
         (.tokenSummaryJson MODEL_OPUS_45 RECOMMENDED_MAX token_summary),
       Event.progressEv 45 "Preparing combined input...",
       Event.writeFile inputs_combined_txt (.inputsCombined combined)]
    if token_summary.within_limit = true then
      if dry_run = true then
        let dummy : ReviewResult := emptyResult MODEL_OPUS_45
        let report_docx := run_dir ++ ["report.docx"]
        let findings_json := run_dir ++ ["findings.json"]
        let raw_response_txt := run_dir ++ ["raw_response.txt"]
        let ev2 := ev1 ++
          [Event.logMsg "Dry-run enabled: skipping API call.",
           Event.writeFile (generate_report_save_path report_docx)
             (.reportDocx dummy (docx_files.map (·.1)) leed_alerts placeholder_alerts),
           Event.writeFile findings_json
             (.findingsJson MODEL_OPUS_45 true 0 0 [] leed_alerts placeholder_alerts),
           Event.writeFile raw_response_txt (.rawResponse ""),
           Event.progressEv 100 "Dry run complete."]
        (ev2, .ok
          { run_dir := run_dir, report_docx := report_docx, findings_json := findings_json,
            raw_response_txt := raw_response_txt, inputs_combined_txt := inputs_combined_txt,
            token_summary_json := token_summary_json, review_result := none,
            leed_alert_count := leed_alerts.length,
            placeholder_alert_count := placeholder_alerts.length })
      else
        let rev := review_specs jloads apiKey outcomes combined MODEL_SONNET false 3
        let review_result := rev.2
        let raw_response_txt := run_dir ++ ["raw_response.txt"]
        let ev2 := ev1 ++ [Event.progressEv 55 "Calling Opus 4.5...", Event.invokeReviewer] ++
          rev.1 ++ [Event.writeFile raw_response_txt (.rawResponse review_result.raw_response)]
        match review_result.error with
        | some err =>
          (ev2 ++ [Event.writeFile (run_dir ++ ["error.txt"]) (.errorTxt err)],
           .error (.invocationFailed err))
        | none =>
          let findings_json := run_dir ++ ["findings.json"]
          let report_docx := run_dir ++ ["report.docx"]
          let ev3 := ev2 ++
            [Event.writeFile findings_json
               (.findingsJson review_result.model false review_result.input_tokens
                 review_result.output_tokens review_result.findings leed_alerts
                 placeholder_alerts),
             Event.progressEv 85 "Generating report.docx...",
             Event.writeFile (generate_report_save_path report_docx)
               (.reportDocx review_result (docx_files.map (·.1)) leed_alerts
                 placeholder_alerts),
             Event.progressEv 100 "Done."]
          (ev3, .ok
            { run_dir := run_dir, report_docx := report_docx, findings_json := findings_json,
              raw_response_txt := raw_response_txt, inputs_combined_txt := inputs_combined_txt,
              token_summary_json := token_summary_json,
              review_result := some review_result,
              leed_alert_count := leed_alerts.length,
              placeholder_alert_count := placeholder_alerts.length })
    else
      (ev1, .error (.tokenLimitExceeded token_summary.total_tokens RECOMMENDED_MAX))

/-! ## Module import resolution (pipeline.py line 13 vs reviewer.py)

Python executes `from .reviewer import review_specs, ReviewResult,
MODEL_OPUS_45` when src/pipeline.py is first imported; each imported name
must be bound in the reviewer module's namespace or the import raises
`ImportError` before any function of pipeline.py can run. -/

/-- Every top-level name bound in src/reviewer.py's module namespace
(its imports and its definitions). -/
def reviewerModuleNames : List String :=
  ["os", "json", "time", "dataclass", "field",
   "Anthropic", "APIError", "APIConnectionError", "RateLimitError",
   "get_system_prompt", "get_user_message",
   "MODEL_SONNET", "MODEL_OPUS",
   "Finding", "ReviewResult", "get_api_key", "parse_findings", "review_specs"]

/-- The names src/pipeline.py line 13 imports from `.reviewer`. -/
def pipelineImportsFromReviewer : List String :=
  ["review_specs", "ReviewResult", "MODEL_OPUS_45"]

/-- Does every name pipeline.py imports from reviewer.py resolve? -/
def pipelineReviewerImportOk : Bool :=
  pipelineImportsFromReviewer.all (fun n => reviewerModuleNames.contains n)

/-! ## Derived notions used by the retry-policy and orchestrator theorems -/

/-- The backoff the `except` handler sleeps after attempt `k`:
`2 ** attempt * 10` for a rate limit, `2 ** attempt * 5` for a
connection error. -/
def backoffOf (k : Nat) : AttemptOutcome → Nat
  | .rateLimit _ => 2 ^ k * 10
  | .connError _ => 2 ^ k * 5
  | _ => 0

/-- The `last_error` variable before attempt `k` (the previous attempt's
exception, or `None` before the first). -/
def lastErrOf (outcomes : Nat → AttemptOutcome) : Nat → Option String
  | 0 => none
  | k + 1 => some (outcomes k).errMsg

/-- The events of the first `k` (all transient) attempts: each makes one
API call, then sleeps its backoff. -/
def prefixEvents (model : String) (outcomes : Nat → AttemptOutcome) (k : Nat) : List Event :=
  (List.range k).flatMap fun j => [.attemptCall model, .sleep (backoffOf j (outcomes j))]

/-- A concrete dry run of the orchestrator: one eligible file, trivial
external stubs, within budget.  Used to evaluate the report-path handoff. -/
def dryRunCex : List Event × Except PipelineError PipelineOutputs :=
  run_review (fun _ => 0) (fun _ _ => []) jloadsCex none (fun _ => .apiError "")
    "sys" "2025-01-02_030405" ["specs"] [("a.docx", "hello world")] ["out"] true false

/-- The full trace of an over-budget run: everything `run_review` does up
to and including persisting `token_summary.json` and
`inputs_combined.txt`, before the admission gate raises. -/
def overBudgetEvents (enc : String → Nat) (system_prompt timestamp : String)
    (listing : List (String × String)) (output_dir : List String) : List Event :=
  let run_dir := output_dir ++ ["review_" ++ timestamp]
  let docx_files := eligibleSpecs listing
  let total := docx_files.length
  [Event.mkRunDir run_dir, Event.progressEv 0 "Extracting DOCX text..."] ++
  ((enumerate1 docx_files).flatMap fun p =>
    [Event.logMsg ("Loading: " ++ p.2.1),
     Event.progressEv ((p.1 : ℚ) / (total : ℚ) * 35)
       ("Loaded " ++ toString p.1 ++ "/" ++ toString total)]) ++
  [Event.progressEv 40 "Analyzing tokens...",
   Event.writeFile (run_dir ++ ["token_summary.json"])
     (.tokenSummaryJson MODEL_OPUS_45 RECOMMENDED_MAX
       (analyze_token_usage enc docx_files system_prompt)),
   Event.progressEv 45 "Preparing combined input...",
   Event.writeFile (run_dir ++ ["inputs_combined.txt"])
     (.inputsCombined (_combine_specs docx_files))]

end SpecCritic

namespace SpecCritic

/-! ## Theorems (claim C3) -/

/-- C3: for every list of (filename, content) pairs and every system prompt,
`analyze_token_usage` returns a `TokenSummary` with
`total_tokens = system_prompt_tokens + sum of per-item token counts` and
`within_limit = (total_tokens ≤ recommended ceiling)`, where the
recommended ceiling is `MAX_CONTEXT_TOKENS - SAFETY_BUFFER = 200000 - 50000`. -/
theorem analyze_token_usage_spec (enc : String → Nat)
    (specs : List (String × String)) (sp : String) :
    (analyze_token_usage enc specs sp).total_tokens =
        (analyze_token_usage enc specs sp).system_prompt_tokens +
          ((analyze_token_usage enc specs sp).items.map (·.tokens)).sum
    ∧ ((analyze_token_usage enc specs sp).within_limit = true ↔
        (analyze_token_usage enc specs sp).total_tokens ≤ RECOMMENDED_MAX)
    ∧ RECOMMENDED_MAX = MAX_CONTEXT_TOKENS - SAFETY_BUFFER
    ∧ MAX_CONTEXT_TOKENS = 200000 ∧ SAFETY_BUFFER = 50000
    ∧ RECOMMENDED_MAX = 150000 := by
  refine ⟨?_, ?_, rfl, rfl, rfl, rfl⟩
  · simp [analyze_token_usage]
  · simp [analyze_token_usage]

/-! ## Helper lemmas about the Python string primitives -/

theorem pyFind_eq_none_iff (c : Char) (s : List Char) :
    pyFind c s = none ↔ c ∉ s := by
  unfold pyFind
  rw [List.findIdx?_eq_none_iff]
  constructor
  · intro h hc
    have := h c hc
    simp at this
  · intro h x hx
    simp only [decide_eq_false_iff_not]
    intro hxc
    exact h (hxc ▸ hx)

theorem pyRFind_eq_none_iff (c : Char) (s : List Char) :
    pyRFind c s = none ↔ c ∉ s := by
  unfold pyRFind
  rcases hF : pyFind c s.reverse with _ | i
  · rw [pyFind_eq_none_iff] at hF
    simp at hF
    simp [hF]
  · have : c ∈ s := by
      by_contra hc
      rw [← List.mem_reverse, ← pyFind_eq_none_iff] at hc
      rw [hc] at hF
      cases hF
    simp [this]

theorem mem_of_mem_pyStrip {a : Char} {s : List Char} (h : a ∈ pyStrip s) : a ∈ s := by
  unfold pyStrip at h
  rw [List.mem_reverse] at h
  have h2 := List.dropWhile_subset isPySpace h
  rw [List.mem_reverse] at h2
  exact List.dropWhile_subset isPySpace h2

/-! ## Claim C5: the Finding nullity invariant -/

/-- C5 (counterexample): `parse_findings` does not enforce the schema
invariant.  On the response `[{"actionType": "ADD", "existingText": "x"}]`
(with `json.loads` behaving as it does on that string), the parsed finding
has `actionType = "ADD"` and a non-null `existingText`, so the claim
"every Finding produced by parse_findings satisfies the invariant" fails. -/
theorem parse_findings_add_nullity_cex :
    parse_findings jloadsCex
        "[\x7b\"actionType\": \"ADD\", \"existingText\": \"x\"\x7d]" =
      .ok [cexFinding]
    ∧ cexFinding.actionType = .str "ADD"
    ∧ cexFinding.existingText ≠ .null
    ∧ ¬ cexFinding.invariantHolds := by
  refine ⟨by decide, by decide, by decide, by decide⟩

/-- C5 (amended): every `Finding` produced by `parse_findings` carries the
response item's `existingText`/`replacementText` verbatim (with `null`
defaults for absent keys), so the schema invariant holds for all parsed
findings whenever every item of the JSON array the response carries obeys
the ADD/DELETE nullity rules; the parser itself does not enforce it. -/
theorem parse_findings_nullity_of_items (jloads : String → Except String JTop)
    (h : ∀ s items, jloads s = .ok (.arr items) → ∀ it ∈ items, itemNullityOK it)
    (response : String) (fs : List Finding)
    (hp : parse_findings jloads response = .ok fs) :
    ∀ f ∈ fs, f.invariantHolds := by
  intro f hf
  rcases hF : pyFind '[' (parsePreppedText response) with _ | si <;>
    rcases hR : pyRFind ']' (parsePreppedText response) with _ | ei <;>
    simp only [parse_findings, hF, hR] at hp
  · -- no delimiters at all
    split at hp
    · cases hp; cases hf
    · cases hp
  · split at hp
    · cases hp; cases hf
    · cases hp
  · split at hp
    · cases hp; cases hf
    · cases hp
  · -- array branch
    rcases hj : jloads (String.mk (((parsePreppedText response).drop si).take
        (ei + 1 - si))) with e | top
    · rw [hj] at hp; simp at hp
    · rw [hj] at hp
      cases top with
      | nonArr ty => simp at hp
      | arr items =>
        have hp' : (Except.ok (items.filterMap findingOfItem) :
            Except String (List Finding)) = .ok fs := hp
        injection hp' with hfs
        subst hfs
        rw [List.mem_filterMap] at hf
        obtain ⟨it, hit, hconv⟩ := hf
        have hOK := h _ _ hj it hit
        cases it with
        | nonObj => cases hconv
        | obj fields =>
          simp only [findingOfItem, Option.some.injEq] at hconv
          subst hconv
          unfold itemNullityOK at hOK
          exact ⟨fun hA => hOK.1 hA, fun hD => hOK.2 hD⟩

/-- Witness for the amended C5: the invariant of the one finding a
well-behaved response produces. -/
theorem parse_findings_nullity_of_items_witness :
    Finding.invariantHolds
      { severity := .str "MEDIUM"
        fileName := .str "Unknown"
        sectionField := .str "Unknown"
        issue := .str "Missing requirement"
        actionType := .str "ADD"
        existingText := .null
        replacementText := .null
        codeReference := .null } := by
  refine parse_findings_nullity_of_items jloadsW ?_ "[]"
    [⟨.str "MEDIUM", .str "Unknown", .str "Unknown", .str "Missing requirement",
      .str "ADD", .null, .null, .null⟩] (by decide) _ (by decide)
  intro s items hs it hit
  simp only [jloadsW, Except.ok.injEq, JTop.arr.injEq] at hs
  subst hs
  simp only [List.mem_singleton] at hit
  subst hit
  decide

/-! ## Claim C6: the delimiter-free branch of parse_findings -/

/-- C6 (counterexample): a truly empty response is a parse failure, not an
empty finding list — `"no issues" in "".lower()` is false and the
`text.strip() == "[]"` alternative cannot hold when no `[` was found. -/
theorem parse_findings_empty_response_cex :
    parse_findings jloadsCex "" = .error (noArrayMsg [])
    ∧ parse_findings jloadsCex "" ≠ .ok [] := by
  refine ⟨by decide, by decide⟩

/-- C6 (amended): when `parse_findings` finds no JSON array delimiters, it
returns the empty finding list exactly when the (stripped, fence-free)
text contains "no issues" (case-insensitively); any other delimiter-free
response — including a truly empty one — raises the parse error.  The
`text.strip() == "[]"` alternative in the code is unreachable in this
branch, since `"[]"` contains both delimiters. -/
theorem parse_findings_no_array_branch (jloads : String → Except String JTop)
    (response : String)
    (h : pyFind '[' (parsePreppedText response) = none ∨
         pyRFind ']' (parsePreppedText response) = none) :
    (containsSub "no issues".data (pyLower (parsePreppedText response)) = true →
        parse_findings jloads response = .ok [])
    ∧ (containsSub "no issues".data (pyLower (parsePreppedText response)) = false →
        parse_findings jloads response = .error (noArrayMsg (parsePreppedText response))) := by
  have hbr : pyStrip (parsePreppedText response) ≠ "[]".data := by
    intro hEq
    have h1 : '[' ∈ pyStrip (parsePreppedText response) := by rw [hEq]; decide
    have h2 : ']' ∈ pyStrip (parsePreppedText response) := by rw [hEq]; decide
    have h1' := mem_of_mem_pyStrip h1
    have h2' := mem_of_mem_pyStrip h2
    rcases h with h | h
    · exact (pyFind_eq_none_iff _ _).mp h h1'
    · exact (pyRFind_eq_none_iff _ _).mp h h2'
  constructor
  · intro hc
    rcases hF : pyFind '[' (parsePreppedText response) with _ | si <;>
      rcases hR : pyRFind ']' (parsePreppedText response) with _ | ei <;>
      simp only [parse_findings, hF, hR] <;>
      first
        | (rw [if_pos (Or.inl hc)])
        | (rw [hF] at h; rw [hR] at h; rcases h with h | h <;> cases h)
  · intro hc
    have hcond : ¬ (containsSub "no issues".data (pyLower (parsePreppedText response)) = true
        ∨ pyStrip (parsePreppedText response) = "[]".data) := by
      rintro (hx | hx)
      · rw [hc] at hx; cases hx
      · exact hbr hx
    rcases hF : pyFind '[' (parsePreppedText response) with _ | si <;>
      rcases hR : pyRFind ']' (parsePreppedText response) with _ | ei <;>
      simp only [parse_findings, hF, hR] <;>
      first
        | (rw [if_neg hcond])
        | (rw [hF] at h; rw [hR] at h; rcases h with h | h <;> cases h)

/-- Witness for the amended C6 at a concrete delimiter-free response. -/
theorem parse_findings_no_array_branch_witness :
    parse_findings jloadsCex "No issues found in these specifications." = .ok [] :=
  (parse_findings_no_array_branch jloadsCex "No issues found in these specifications."
    (Or.inl (by decide))).1 (by decide)

/-! ## Claim C2: the orchestrator entry point cannot be imported -/

/-- C2 (code bug): src/pipeline.py line 13 executes
`from .reviewer import review_specs, ReviewResult, MODEL_OPUS_45`, but
src/reviewer.py binds `MODEL_SONNET` and `MODEL_OPUS` and no
`MODEL_OPUS_45`, so importing the module raises `ImportError` and
`run_review` can never return a `PipelineOutputs` (nor raise its typed
errors) — the entry-point contract the claim states is unreachable. -/
theorem pipeline_import_MODEL_OPUS_45_unresolvable :
    "MODEL_OPUS_45" ∈ pipelineImportsFromReviewer
    ∧ "MODEL_OPUS_45" ∉ reviewerModuleNames
    ∧ pipelineReviewerImportOk = false := by
  refine ⟨by decide, by decide, by decide⟩

/-! ## Claim C9: the report path handoff -/

/-- C9 (code bug): `generate_report` saves the document at
`output_path / "report.docx"` (src/report.py line 319), while `run_review`
already passes `run_dir / "report.docx"` as `output_path` and returns that
argument as `PipelineOutputs.report_docx`.  On a concrete dry run the one
report write lands at `run_dir/report.docx/report.docx`, and no write ever
occurs at the returned `report_docx` path. -/
theorem generate_report_path_mismatch :
    (dryRunCex.2.toOption.map (fun o => o.report_docx)) =
        some ["out", "review_2025-01-02_030405", "report.docx"]
    ∧ (writesOf dryRunCex.1).map Prod.fst =
        [["out", "review_2025-01-02_030405", "token_summary.json"],
         ["out", "review_2025-01-02_030405", "inputs_combined.txt"],
         ["out", "review_2025-01-02_030405", "report.docx", "report.docx"],
         ["out", "review_2025-01-02_030405", "findings.json"],
         ["out", "review_2025-01-02_030405", "raw_response.txt"]]
    ∧ ["out", "review_2025-01-02_030405", "report.docx"] ∉
        (writesOf dryRunCex.1).map Prod.fst
    ∧ generate_report_save_path ["out", "review_2025-01-02_030405", "report.docx"] =
        ["out", "review_2025-01-02_030405", "report.docx", "report.docx"] := by
  refine ⟨by decide, by decide, by decide, by decide⟩

/-! ## Claim C8: alert deduplication -/

theorem dedupGo_map_key_nodup {K : Type} [DecidableEq K] (key : Alert → K) :
    ∀ (l : List Alert) (seen : List K) (acc : List Alert),
      (∀ a ∈ acc, key a ∈ seen) → (acc.map key).Nodup →
      ((dedupGo key seen acc l).map key).Nodup := by
  intro l
  induction l with
  | nil =>
    intro seen acc _ h2
    simpa [dedupGo] using h2
  | cons a rest ih =>
    intro seen acc h1 h2
    unfold dedupGo
    by_cases hk : key a ∈ seen
    · rw [if_pos hk]
      exact ih _ _ h1 h2
    · rw [if_neg hk]
      apply ih
      · intro b hb
        rcases List.mem_append.mp hb with hb | hb
        · exact List.mem_cons_of_mem _ (h1 b hb)
        · simp only [List.mem_singleton] at hb
          subst hb
          exact List.mem_cons_self _ _
      · have hka : key a ∉ acc.map key := by
          intro hmem
          rcases List.mem_map.mp hmem with ⟨b, hb, hbe⟩
          exact hk (hbe ▸ h1 b hb)
        rw [List.map_append]
        rw [List.nodup_append]
        refine ⟨h2, List.nodup_singleton _, ?_⟩
        intro x hx
        simp only [List.map_cons, List.map_nil, List.mem_singleton]
        intro he
        exact hka (he ▸ hx)

/-- C8 (amended): both detectors deduplicate, but on different keys —
`detect_leed_references` collapses matches identical in
`(filename, line, type)`, while `detect_placeholders` collapses matches
identical in `(filename, line, matched text)`: in each detector's output
no two records share its own key, for every matcher behaviour, content and
filename. -/
theorem detect_dedup_keys (finditer : String → String → List String)
    (content filename : String) :
    ((detect_leed_references finditer content filename).map
        (fun a => (a.filename, a.line, a.type))).Nodup
    ∧ ((detect_placeholders finditer content filename).map
        (fun a => (a.filename, a.line, a.text))).Nodup := by
  constructor
  · unfold detect_leed_references dedupBy
    apply dedupGo_map_key_nodup
    · intro a ha
      cases ha
    · simp
  · unfold detect_placeholders dedupBy
    apply dedupGo_map_key_nodup
    · intro a ha
      cases ha
    · simp

/-! ## Claim C4: the retry policy of review_specs -/

theorem callCount_append (a b : List Event) :
    callCount (a ++ b) = callCount a + callCount b := by
  simp [callCount, List.countP_append]

theorem revAttempts_calls_le (jloads : String → Except String JTop)
    (outcomes : Nat → AttemptOutcome) (model : String) (mr : Nat) :
    ∀ (rem k : Nat) (lastErr : Option String),
      callCount (reviewAttempts jloads outcomes model mr k rem lastErr).1 ≤ rem := by
  intro rem
  induction rem with
  | zero =>
    intro k last
    simp [reviewAttempts, callCount]
  | succ r ih =>
    intro k last
    cases h : outcomes k with
    | success txt iT oT =>
      cases hp : parse_findings jloads txt <;>
        simp [reviewAttempts, h, hp, callCount]
    | rateLimit m =>
      have hle := ih (k + 1) (some m)
      simp only [reviewAttempts, h]
      simp only [callCount] at hle
      simp [callCount, List.countP_cons]
      omega
    | connError m =>
      have hle := ih (k + 1) (some m)
      simp only [reviewAttempts, h]
      simp only [callCount] at hle
      simp [callCount, List.countP_cons]
      omega
    | apiError m =>
      simp [reviewAttempts, h, callCount]

theorem revAttempts_calls_ge1 (jloads : String → Except String JTop)
    (outcomes : Nat → AttemptOutcome) (model : String) (mr : Nat)
    (rem k : Nat) (lastErr : Option String) (h1 : 1 ≤ rem) :
    1 ≤ callCount (reviewAttempts jloads outcomes model mr k rem lastErr).1 := by
  cases rem with
  | zero => omega
  | succ r =>
    cases h : outcomes k with
    | success txt iT oT =>
      cases hp : parse_findings jloads txt <;>
        simp [reviewAttempts, h, hp, callCount]
    | rateLimit m =>
      simp [reviewAttempts, h, callCount, List.countP_cons]
    | connError m =>
      simp [reviewAttempts, h, callCount, List.countP_cons]
    | apiError m =>
      simp [reviewAttempts, h, callCount]

theorem transient_step (jloads : String → Except String JTop)
    (outcomes : Nat → AttemptOutcome) (model : String) (mr k rem : Nat)
    (lastErr : Option String) (h : (outcomes k).isTransient = true) :
    reviewAttempts jloads outcomes model mr k (rem + 1) lastErr =
      (Event.attemptCall model :: Event.sleep (backoffOf k (outcomes k)) ::
        (reviewAttempts jloads outcomes model mr (k + 1) rem (some (outcomes k).errMsg)).1,
       (reviewAttempts jloads outcomes model mr (k + 1) rem (some (outcomes k).errMsg)).2) := by
  cases ho : outcomes k with
  | success txt iT oT => rw [ho] at h; simp [AttemptOutcome.isTransient] at h
  | rateLimit m => simp [reviewAttempts, ho, backoffOf, AttemptOutcome.errMsg]
  | connError m => simp [reviewAttempts, ho, backoffOf, AttemptOutcome.errMsg]
  | apiError m => rw [ho] at h; simp [AttemptOutcome.isTransient] at h

theorem prefixEvents_succ (model : String) (outcomes : Nat → AttemptOutcome) (k : Nat) :
    prefixEvents model outcomes (k + 1) =
      prefixEvents model outcomes k ++
        [Event.attemptCall model, Event.sleep (backoffOf k (outcomes k))] := by
  simp [prefixEvents, List.range_succ]

theorem callCount_prefixEvents (model : String) (outcomes : Nat → AttemptOutcome) :
    ∀ k, callCount (prefixEvents model outcomes k) = k := by
  intro k
  induction k with
  | zero => simp [prefixEvents, callCount]
  | succ n ih =>
    rw [prefixEvents_succ, callCount_append, ih]
    simp [callCount]

/-- Unrolling the loop through a transient prefix: after `k` transient
attempts (`k ≤ 3`), the run so far is `prefixEvents ... k` and the loop
continues at attempt `k` with `3 - k` iterations left. -/
theorem revAttempts_reach (jloads : String → Except String JTop)
    (outcomes : Nat → AttemptOutcome) (model : String) :
    ∀ k, k ≤ 3 → (∀ j, j < k → (outcomes j).isTransient = true) →
      reviewAttempts jloads outcomes model 3 0 3 none =
        (prefixEvents model outcomes k ++
          (reviewAttempts jloads outcomes model 3 k (3 - k) (lastErrOf outcomes k)).1,
         (reviewAttempts jloads outcomes model 3 k (3 - k) (lastErrOf outcomes k)).2) := by
  intro k
  induction k with
  | zero =>
    intro _ _
    simp [prefixEvents, lastErrOf]
  | succ n ih =>
    intro hk htr
    rw [ih (by omega) (fun j hj => htr j (by omega))]
    have h3 : 3 - n = (3 - (n + 1)) + 1 := by omega
    rw [h3, transient_step jloads outcomes model 3 n _ _ (htr n (by omega))]
    rw [prefixEvents_succ]
    simp [lastErrOf, List.append_assoc]

/-- C4: `review_specs` makes at most 3 invocation attempts; after `k`
transient attempts, a rate-limit retry sleeps `2^k * 10` seconds and a
connection-error retry `2^k * 5` (doubling from 10 and 5); a non-transient
API error or a response-parse failure at attempt `k` is terminal, recorded
in `ReviewResult.error` with exactly `k + 1` calls made; three transient
attempts exhaust the retries with a terminal error result. -/
theorem review_specs_retry_policy (jloads : String → Except String JTop)
    (key : String) (outcomes : Nat → AttemptOutcome) (combined : String) :
    callCount (review_specs jloads (some key) outcomes combined MODEL_SONNET false 3).1 ≤ 3
    ∧ (∀ k m, k < 3 → (∀ j, j < k → (outcomes j).isTransient = true) →
        outcomes k = .apiError m →
        (review_specs jloads (some key) outcomes combined MODEL_SONNET false 3).2.error =
            some ("API error: " ++ m)
        ∧ callCount (review_specs jloads (some key) outcomes combined
            MODEL_SONNET false 3).1 = k + 1)
    ∧ (∀ k txt iT oT e, k < 3 → (∀ j, j < k → (outcomes j).isTransient = true) →
        outcomes k = .success txt iT oT → parse_findings jloads txt = .error e →
        (review_specs jloads (some key) outcomes combined MODEL_SONNET false 3).2.error =
            some ("Failed to parse response: " ++ e)
        ∧ callCount (review_specs jloads (some key) outcomes combined
            MODEL_SONNET false 3).1 = k + 1)
    ∧ (∀ k m, k < 3 → (∀ j, j < k → (outcomes j).isTransient = true) →
        outcomes k = .rateLimit m →
        Event.sleep (2 ^ k * 10) ∈
          (review_specs jloads (some key) outcomes combined MODEL_SONNET false 3).1
        ∧ (k + 1 < 3 → k + 2 ≤ callCount (review_specs jloads (some key) outcomes combined
            MODEL_SONNET false 3).1))
    ∧ (∀ k m, k < 3 → (∀ j, j < k → (outcomes j).isTransient = true) →
        outcomes k = .connError m →
        Event.sleep (2 ^ k * 5) ∈
          (review_specs jloads (some key) outcomes combined MODEL_SONNET false 3).1
        ∧ (k + 1 < 3 → k + 2 ≤ callCount (review_specs jloads (some key) outcomes combined
            MODEL_SONNET false 3).1))
    ∧ ((∀ j, j < 3 → (outcomes j).isTransient = true) →
        callCount (review_specs jloads (some key) outcomes combined MODEL_SONNET false 3).1 = 3
        ∧ (review_specs jloads (some key) outcomes combined MODEL_SONNET false 3).2.error =
            some (exhaustedMsg 3 (some (outcomes 2).errMsg))) := by
  have hR : review_specs jloads (some key) outcomes combined MODEL_SONNET false 3 =
      reviewAttempts jloads outcomes MODEL_SONNET 3 0 3 none := by
    simp [review_specs]
  rw [hR]
  refine ⟨revAttempts_calls_le jloads outcomes MODEL_SONNET 3 3 0 none, ?_, ?_, ?_, ?_, ?_⟩
  · intro k m hk htr hout
    rw [revAttempts_reach jloads outcomes MODEL_SONNET k (by omega) htr]
    have h3 : 3 - k = (2 - k) + 1 := by omega
    rw [h3]
    refine ⟨?_, ?_⟩
    · simp [reviewAttempts, hout, emptyResult]
    · rw [callCount_append, callCount_prefixEvents]
      simp [reviewAttempts, hout, callCount]
  · intro k txt iT oT e hk htr hout hparse
    rw [revAttempts_reach jloads outcomes MODEL_SONNET k (by omega) htr]
    have h3 : 3 - k = (2 - k) + 1 := by omega
    rw [h3]
    refine ⟨?_, ?_⟩
    · simp [reviewAttempts, hout, hparse]
    · rw [callCount_append, callCount_prefixEvents]
      simp [reviewAttempts, hout, hparse, callCount]
  · intro k m hk htr hout
    have htr' : ∀ j, j < k + 1 → (outcomes j).isTransient = true := by
      intro j hj
      rcases Nat.lt_succ_iff_lt_or_eq.mp hj with hj | hj
      · exact htr j hj
      · subst hj
        rw [hout]
        rfl
    rw [revAttempts_reach jloads outcomes MODEL_SONNET (k + 1) (by omega) htr']
    refine ⟨?_, ?_⟩
    · rw [prefixEvents_succ]
      have hb : backoffOf k (outcomes k) = 2 ^ k * 10 := by rw [hout]; rfl
      rw [hb]
      simp
    · intro hk2
      rw [callCount_append, callCount_prefixEvents]
      have h1 := revAttempts_calls_ge1 jloads outcomes MODEL_SONNET 3 (3 - (k + 1)) (k + 1)
        (lastErrOf outcomes (k + 1)) (by omega)
      omega
  · intro k m hk htr hout
    have htr' : ∀ j, j < k + 1 → (outcomes j).isTransient = true := by
      intro j hj
      rcases Nat.lt_succ_iff_lt_or_eq.mp hj with hj | hj
      · exact htr j hj
      · subst hj
        rw [hout]
        rfl
    rw [revAttempts_reach jloads outcomes MODEL_SONNET (k + 1) (by omega) htr']
    refine ⟨?_, ?_⟩
    · rw [prefixEvents_succ]
      have hb : backoffOf k (outcomes k) = 2 ^ k * 5 := by rw [hout]; rfl
      rw [hb]
      simp
    · intro hk2
      rw [callCount_append, callCount_prefixEvents]
      have h1 := revAttempts_calls_ge1 jloads outcomes MODEL_SONNET 3 (3 - (k + 1)) (k + 1)
        (lastErrOf outcomes (k + 1)) (by omega)
      omega
  · intro htr
    rw [revAttempts_reach jloads outcomes MODEL_SONNET 3 (by omega) htr]
    refine ⟨?_, ?_⟩
    · rw [callCount_append, callCount_prefixEvents]
      simp [reviewAttempts, callCount]
    · simp [reviewAttempts, lastErrOf]

/-- Witness for C4: one rate-limited attempt, then a terminal API error on
the second attempt — recorded in the error field after exactly two calls. -/
theorem review_specs_retry_policy_witness :
    (review_specs jloadsW (some "key")
        (fun k => if k = 0 then AttemptOutcome.rateLimit "rl" else .apiError "boom")
        "combined" MODEL_SONNET false 3).2.error = some ("API error: " ++ "boom")
    ∧ callCount (review_specs jloadsW (some "key")
        (fun k => if k = 0 then AttemptOutcome.rateLimit "rl" else .apiError "boom")
        "combined" MODEL_SONNET false 3).1 = 1 + 1 :=
  (review_specs_retry_policy jloadsW "key"
      (fun k => if k = 0 then AttemptOutcome.rateLimit "rl" else .apiError "boom")
      "combined").2.1 1 "boom" (by omega)
    (fun j hj => by interval_cases j; decide) (by decide)

/-! ## Claims C1 and C10: the admission gate and its artifacts -/

theorem writesOf_append (a b : List Event) :
    writesOf (a ++ b) = writesOf a ++ writesOf b := by
  simp [writesOf, List.filterMap_append]

theorem writesOf_extractEvs (l : List (Nat × (String × String))) (total : Nat) :
    writesOf (l.flatMap fun p =>
      [Event.logMsg ("Loading: " ++ p.2.1),
       Event.progressEv ((p.1 : ℚ) / (total : ℚ) * 35)
         ("Loaded " ++ toString p.1 ++ "/" ++ toString total)]) = [] := by
  induction l with
  | nil => rfl
  | cons x xs ih =>
    rw [List.flatMap_cons, writesOf_append, ih]
    rfl

/-- The behaviour of `run_review` on an over-budget input: the trace is
exactly the pre-gate events and the result is the token-limit error. -/
theorem run_review_over_budget_eq (enc : String → Nat)
    (finditer : String → String → List String) (jloads : String → Except String JTop)
    (apiKey : Option String) (outcomes : Nat → AttemptOutcome)
    (system_prompt timestamp : String) (input_dir : List String)
    (listing : List (String × String)) (output_dir : List String)
    (dry_run verbose : Bool)
    (hne : eligibleSpecs listing ≠ [])
    (hover : (analyze_token_usage enc (eligibleSpecs listing) system_prompt).within_limit
        = false) :
    run_review enc finditer jloads apiKey outcomes system_prompt timestamp input_dir
        listing output_dir dry_run verbose =
      (overBudgetEvents enc system_prompt timestamp listing output_dir,
       .error (.tokenLimitExceeded
         (analyze_token_usage enc (eligibleSpecs listing) system_prompt).total_tokens
         RECOMMENDED_MAX)) := by
  simp only [run_review, overBudgetEvents]
  rw [if_neg hne]
  simp [hover]

/-- C1: whenever the token estimator reports the input over budget
(`within_limit = false`), `run_review` terminates with the descriptive
token-limit error (the `ValueError` carrying total and ceiling, rendered
by `PipelineError.message`), `review_specs` is never entered and no API
call is ever attempted, and the token-summary artifact is already in the
trace — persisted before the error is raised. -/
theorem run_review_over_budget_gate (enc : String → Nat)
    (finditer : String → String → List String) (jloads : String → Except String JTop)
    (apiKey : Option String) (outcomes : Nat → AttemptOutcome)
    (system_prompt timestamp : String) (input_dir : List String)
    (listing : List (String × String)) (output_dir : List String)
    (dry_run verbose : Bool)
    (hne : eligibleSpecs listing ≠ [])
    (hover : (analyze_token_usage enc (eligibleSpecs listing) system_prompt).within_limit
        = false) :
    (run_review enc finditer jloads apiKey outcomes system_prompt timestamp input_dir
        listing output_dir dry_run verbose).2 =
      .error (.tokenLimitExceeded
        (analyze_token_usage enc (eligibleSpecs listing) system_prompt).total_tokens
        RECOMMENDED_MAX)
    ∧ Event.invokeReviewer ∉ (run_review enc finditer jloads apiKey outcomes system_prompt
        timestamp input_dir listing output_dir dry_run verbose).1
    ∧ (∀ m, Event.attemptCall m ∉ (run_review enc finditer jloads apiKey outcomes
        system_prompt timestamp input_dir listing output_dir dry_run verbose).1)
    ∧ Event.writeFile ((output_dir ++ ["review_" ++ timestamp]) ++ ["token_summary.json"])
        (.tokenSummaryJson MODEL_OPUS_45 RECOMMENDED_MAX
          (analyze_token_usage enc (eligibleSpecs listing) system_prompt)) ∈
      (run_review enc finditer jloads apiKey outcomes system_prompt timestamp input_dir
        listing output_dir dry_run verbose).1 := by
  rw [run_review_over_budget_eq enc finditer jloads apiKey outcomes system_prompt timestamp
    input_dir listing output_dir dry_run verbose hne hover]
  refine ⟨rfl, ?_, ?_, ?_⟩
  · simp [overBudgetEvents, List.mem_flatMap]
  · intro m
    simp [overBudgetEvents, List.mem_flatMap]
  · simp [overBudgetEvents]

/-- Witness for C1 at a concrete over-budget run (one file, an encoder
reporting 100000 tokens per text, total 200000 > 150000). -/
theorem run_review_over_budget_gate_witness :
    (run_review (fun _ => 100000) (fun _ _ => []) jloadsCex none (fun _ => .apiError "")
        "sys" "W1" ["specs"] [("a.docx", "x")] ["out"] false false).2 =
      .error (.tokenLimitExceeded
        (analyze_token_usage (fun _ => 100000) (eligibleSpecs [("a.docx", "x")])
          "sys").total_tokens RECOMMENDED_MAX)
    ∧ Event.invokeReviewer ∉ (run_review (fun _ => 100000) (fun _ _ => []) jloadsCex none
        (fun _ => .apiError "") "sys" "W1" ["specs"] [("a.docx", "x")] ["out"] false false).1
    ∧ Event.attemptCall MODEL_SONNET ∉ (run_review (fun _ => 100000) (fun _ _ => [])
        jloadsCex none (fun _ => .apiError "") "sys" "W1" ["specs"] [("a.docx", "x")]
        ["out"] false false).1
    ∧ Event.writeFile ((["out"] ++ ["review_" ++ "W1"]) ++ ["token_summary.json"])
        (.tokenSummaryJson MODEL_OPUS_45 RECOMMENDED_MAX
          (analyze_token_usage (fun _ => 100000) (eligibleSpecs [("a.docx", "x")]) "sys")) ∈
      (run_review (fun _ => 100000) (fun _ _ => []) jloadsCex none (fun _ => .apiError "")
        "sys" "W1" ["specs"] [("a.docx", "x")] ["out"] false false).1 := by
  have h := run_review_over_budget_gate (fun _ => 100000) (fun _ _ => []) jloadsCex none
    (fun _ => .apiError "") "sys" "W1" ["specs"] [("a.docx", "x")] ["out"] false false
    (by decide) (by decide)
  exact ⟨h.1, h.2.1, h.2.2.1 MODEL_SONNET, h.2.2.2⟩

/-- C10: when the admission gate raises, the run directory holds exactly
two artifacts, written in this order: `token_summary.json` and then the
`inputs_combined.txt` snapshot of the combined text — both persisted
before the gate was evaluated, and nothing else was written. -/
theorem run_review_over_budget_artifacts (enc : String → Nat)
    (finditer : String → String → List String) (jloads : String → Except String JTop)
    (apiKey : Option String) (outcomes : Nat → AttemptOutcome)
    (system_prompt timestamp : String) (input_dir : List String)
    (listing : List (String × String)) (output_dir : List String)
    (dry_run verbose : Bool)
    (hne : eligibleSpecs listing ≠ [])
    (hover : (analyze_token_usage enc (eligibleSpecs listing) system_prompt).within_limit
        = false) :
    writesOf (run_review enc finditer jloads apiKey outcomes system_prompt timestamp
        input_dir listing output_dir dry_run verbose).1 =
      [((output_dir ++ ["review_" ++ timestamp]) ++ ["token_summary.json"],
        .tokenSummaryJson MODEL_OPUS_45 RECOMMENDED_MAX
          (analyze_token_usage enc (eligibleSpecs listing) system_prompt)),
       ((output_dir ++ ["review_" ++ timestamp]) ++ ["inputs_combined.txt"],
        .inputsCombined (_combine_specs (eligibleSpecs listing)))]
    ∧ (run_review enc finditer jloads apiKey outcomes system_prompt timestamp input_dir
        listing output_dir dry_run verbose).2 =
      .error (.tokenLimitExceeded
        (analyze_token_usage enc (eligibleSpecs listing) system_prompt).total_tokens
        RECOMMENDED_MAX) := by
  rw [run_review_over_budget_eq enc finditer jloads apiKey outcomes system_prompt timestamp
    input_dir listing output_dir dry_run verbose hne hover]
  refine ⟨?_, rfl⟩
  unfold overBudgetEvents
  rw [writesOf_append, writesOf_append]
  rw [writesOf_extractEvs]
  rfl

/-- Witness for C10 at a concrete over-budget run. -/
theorem run_review_over_budget_artifacts_witness :
    writesOf (run_review (fun _ => 200000) (fun _ _ => []) jloadsCex none
        (fun _ => .apiError "") "sys" "W2" ["specs"] [("b.docx", "y")] ["out"] true false).1 =
      [((["out"] ++ ["review_" ++ "W2"]) ++ ["token_summary.json"],
        .tokenSummaryJson MODEL_OPUS_45 RECOMMENDED_MAX
          (analyze_token_usage (fun _ => 200000) (eligibleSpecs [("b.docx", "y")]) "sys")),
       ((["out"] ++ ["review_" ++ "W2"]) ++ ["inputs_combined.txt"],
        .inputsCombined (_combine_specs (eligibleSpecs [("b.docx", "y")])))]
    ∧ (run_review (fun _ => 200000) (fun _ _ => []) jloadsCex none (fun _ => .apiError "")
        "sys" "W2" ["specs"] [("b.docx", "y")] ["out"] true false).2 =
      .error (.tokenLimitExceeded
        (analyze_token_usage (fun _ => 200000) (eligibleSpecs [("b.docx", "y")])
          "sys").total_tokens RECOMMENDED_MAX) :=
  run_review_over_budget_artifacts (fun _ => 200000) (fun _ _ => []) jloadsCex none
    (fun _ => .apiError "") "sys" "W2" ["specs"] [("b.docx", "y")] ["out"] true false
    (by decide) (by decide)

/-! ## Claim C7: delimiter round-trip — substring counting lemmas -/

theorem isPre_iff (p : List Char) : ∀ l, isPre p l = true ↔ ∃ r, p ++ r = l := by
  induction p with
  | nil =>
    intro l
    simp [isPre]
  | cons a as ih =>
    intro l
    cases l with
    | nil =>
      simp [isPre]
    | cons b bs =>
      simp only [isPre]
      by_cases hab : a = b
      · subst hab
        rw [if_pos rfl, ih bs]
        constructor
        · rintro ⟨r, hr⟩
          exact ⟨r, by rw [List.cons_append, hr]⟩
        · rintro ⟨r, hr⟩
          rw [List.cons_append] at hr
          exact ⟨r, (List.cons.injEq _ _ _ _).mp hr |>.2⟩
      · rw [if_neg hab]
        constructor
        · intro h
          cases h
        · rintro ⟨r, hr⟩
          rw [List.cons_append] at hr
          exact absurd ((List.cons.injEq _ _ _ _).mp hr).1 hab

theorem isPre_refl (l : List Char) : isPre l l = true :=
  (isPre_iff l l).mpr ⟨[], List.append_nil l⟩

theorem isPre_length_le {p l : List Char} (h : isPre p l = true) : p.length ≤ l.length := by
  obtain ⟨r, hr⟩ := (isPre_iff p l).mp h
  rw [← hr, List.length_append]
  omega

theorem countOccs_nil {p : List Char} (h : p ≠ []) : countOccs p [] = 0 := by
  cases p with
  | nil => exact absurd rfl h
  | cons a as => simp [countOccs, tailsL, isPre]

theorem countOccs_cons (p : List Char) (x : Char) (s : List Char) :
    countOccs p (x :: s) = (if isPre p (x :: s) = true then 1 else 0) + countOccs p s := by
  simp only [countOccs, tailsL, List.filter_cons]
  by_cases h : isPre p (x :: s) = true
  · simp [h]
    omega
  · simp [h]

theorem countOccs_short : ∀ {s p : List Char}, s.length < p.length → countOccs p s = 0 := by
  intro s
  induction s with
  | nil =>
    intro p h
    exact countOccs_nil (by intro hp; subst hp; simp at h)
  | cons x xs ih =>
    intro p h
    rw [countOccs_cons]
    have h1 : isPre p (x :: xs) ≠ true := by
      intro hp
      have := isPre_length_le hp
      omega
    rw [if_neg h1, ih (by simp at h ⊢; omega)]

theorem countOccs_self {p : List Char} (h : p ≠ []) : countOccs p p = 1 := by
  cases p with
  | nil => exact absurd rfl h
  | cons a as =>
    rw [countOccs_cons, if_pos (isPre_refl _), countOccs_short (by simp)]

theorem isPre_append_nl : ∀ (p : List Char), ('\n' : Char) ∉ p →
    ∀ u v, isPre p (u ++ '\n' :: v) = isPre p u := by
  intro p
  induction p with
  | nil =>
    intro _ u v
    rfl
  | cons a as ih =>
    intro hnl u v
    cases u with
    | nil =>
      have ha : ¬ (a = '\n') := fun h => hnl (h ▸ List.mem_cons_self a as)
      simp only [List.nil_append, isPre]
      rw [if_neg ha]
    | cons b us =>
      simp only [List.cons_append, isPre]
      by_cases hab : a = b
      · rw [if_pos hab, if_pos hab]
        exact ih (fun h => hnl (List.mem_cons_of_mem _ h)) us v
      · rw [if_neg hab, if_neg hab]

theorem countOccs_split {p : List Char} (hnl : ('\n' : Char) ∉ p) (hne : p ≠ []) :
    ∀ a b, countOccs p (a ++ '\n' :: b) = countOccs p a + countOccs p b := by
  intro a
  induction a with
  | nil =>
    intro b
    rw [List.nil_append, countOccs_cons, countOccs_nil hne]
    have h1 : isPre p ('\n' :: b) ≠ true := by
      intro hp
      rw [← List.nil_append ('\n' :: b), isPre_append_nl p hnl [] b] at hp
      cases p with
      | nil => exact hne rfl
      | cons c cs => cases hp
    rw [if_neg h1]
  | cons x xs ih =>
    intro b
    rw [List.cons_append, countOccs_cons, countOccs_cons p x xs, ih b]
    have : isPre p (x :: (xs ++ '\n' :: b)) = isPre p (x :: xs) := by
      have := isPre_append_nl p hnl (x :: xs) b
      rw [List.cons_append] at this
      exact this
    rw [this]
    omega

theorem countOccs_nlcons {p : List Char} (hnl : ('\n' : Char) ∉ p) (hne : p ≠ [])
    (b : List Char) : countOccs p ('\n' :: b) = countOccs p b := by
  have := countOccs_split hnl hne [] b
  rw [List.nil_append] at this
  rw [this, countOccs_nil hne]
  omega

theorem countOccs_eq_zero_of_not_sub {p s : List Char}
    (h : containsSub p s = false) : countOccs p s = 0 := by
  simp only [containsSub, List.any_eq_true, not_exists] at h
  simp only [countOccs, List.length_eq_zero]
  rw [List.filter_eq_nil_iff]
  intro t ht hp
  rw [List.any_eq_false] at h
  exact absurd hp (by simpa using h t ht)

theorem countOccs_joinSep {p : List Char} (hnl : ('\n' : Char) ∉ p) (hne : p ≠ []) :
    ∀ bs : List (List Char),
      countOccs p (joinSep ['\n', '\n'] bs) = (bs.map (countOccs p)).sum := by
  intro bs
  induction bs with
  | nil => simp [joinSep, countOccs_nil hne]
  | cons b rest ih =>
    cases rest with
    | nil => simp [joinSep]
    | cons b' rest' =>
      have hj : joinSep ['\n', '\n'] (b :: b' :: rest') =
          b ++ '\n' :: ('\n' :: joinSep ['\n', '\n'] (b' :: rest')) := by
        simp [joinSep]
      rw [hj, countOccs_split hnl hne, countOccs_nlcons hnl hne, ih]
      simp

/-! ## Claim C7: line-splitting lemmas -/

theorem splitCh_ne_nil (sep : Char) : ∀ l, splitCh sep l ≠ [] := by
  intro l
  cases l with
  | nil => simp [splitCh]
  | cons c cs =>
    simp only [splitCh]
    by_cases h : c = sep
    · simp [h]
    · simp [h]

theorem splitCh_append (sep : Char) : ∀ a b,
    splitCh sep (a ++ sep :: b) = splitCh sep a ++ splitCh sep b := by
  intro a b
  induction a with
  | nil =>
    rw [List.nil_append]
    simp only [splitCh]
    rw [if_pos trivial]
    rfl
  | cons x xs ih =>
    rw [List.cons_append]
    by_cases hx : x = sep
    · subst hx
      simp only [splitCh]
      rw [if_pos trivial, if_pos trivial, ih]
      rfl
    · simp only [splitCh]
      rw [if_neg hx, if_neg hx, ih]
      rcases hxs : splitCh sep xs with _ | ⟨t, ts⟩
      · exact absurd hxs (splitCh_ne_nil sep xs)
      · simp [List.headI]

theorem splitCh_no_sep (sep : Char) : ∀ l, (∀ c ∈ l, c ≠ sep) → splitCh sep l = [l] := by
  intro l
  induction l with
  | nil =>
    intro _
    rfl
  | cons x xs ih =>
    intro h
    simp only [splitCh]
    rw [if_neg (h x (List.mem_cons_self _ _)), ih (fun c hc => h c (List.mem_cons_of_mem _ hc))]
    rfl

theorem joinCh_splitCh (sep : Char) : ∀ s, joinCh sep (splitCh sep s) = s := by
  intro s
  induction s with
  | nil => rfl
  | cons c cs ih =>
    by_cases hc : c = sep
    · subst hc
      simp only [splitCh]
      rw [if_pos trivial]
      rcases hcs : splitCh c cs with _ | ⟨t, ts⟩
      · exact absurd hcs (splitCh_ne_nil c cs)
      · rw [hcs] at ih
        simp only [joinCh, List.nil_append]
        rw [ih]
    · simp only [splitCh]
      rw [if_neg hc]
      rcases hcs : splitCh sep cs with _ | ⟨t, ts⟩
      · exact absurd hcs (splitCh_ne_nil sep cs)
      · rw [hcs] at ih
        simp only [List.headI, List.tail_cons]
        cases ts with
        | nil =>
          simp only [joinCh] at ih ⊢
          rw [ih]
        | cons t' ts' =>
          simp only [joinCh] at ih ⊢
          rw [List.cons_append, ih]

/-! ## Claim C7: header-line and group-parsing lemmas -/

theorem stringData_injective : Function.Injective String.data := by
  intro s t h
  cases s
  cases t
  exact congrArg String.mk h

theorem nl_not_mem_headerC {fn : List Char} (h : ('\n' : Char) ∉ fn) :
    ('\n' : Char) ∉ headerC fn := by
  unfold headerC
  intro hm
  rcases List.mem_append.mp hm with hm | hm
  · rcases List.mem_append.mp hm with hm | hm
    · exact absurd hm (by decide)
    · exact h hm
  · exact absurd hm (by decide)

theorem headerC_ne_nil (fn : List Char) : headerC fn ≠ [] := by
  unfold headerC
  simp [FILE_DELIM_LEAD]

theorem isHeaderLine_headerC (fn : List Char) : isHeaderLine (headerC fn) = some fn := by
  unfold isHeaderLine headerC
  rw [List.append_assoc]
  rw [if_pos ((isPre_iff _ _).mpr ⟨fn ++ FILE_DELIM_TRAIL.data, rfl⟩)]
  rw [List.drop_left]
  rw [if_pos ((isPre_iff _ _).mpr ⟨fn.reverse, (List.reverse_append _ _).symm⟩)]
  have hlen : (fn ++ FILE_DELIM_TRAIL.data).length - FILE_DELIM_TRAIL.data.length
      = fn.length := by
    rw [List.length_append]
    omega
  rw [hlen, List.take_left]

theorem isHeaderLine_nil : isHeaderLine ([] : List Char) = none := rfl

theorem parseGroupsGo_absorb : ∀ (seg : List (List Char)),
    (∀ l ∈ seg, isHeaderLine l = none) →
    ∀ (ls : List (List Char)) (fn : List Char) (acc : List (List Char)),
      parseGroupsGo (seg ++ ls) (some (fn, acc)) =
        parseGroupsGo ls (some (fn, seg.reverse ++ acc)) := by
  intro seg
  induction seg with
  | nil =>
    intro _ ls fn acc
    simp
  | cons l seg' ih =>
    intro h ls fn acc
    rw [List.cons_append]
    simp only [parseGroupsGo, h l (List.mem_cons_self _ _)]
    rw [ih (fun x hx => h x (List.mem_cons_of_mem _ hx)) ls fn (l :: acc)]
    have : seg'.reverse ++ (l :: acc) = (l :: seg').reverse ++ acc := by
      simp
    rw [this]

theorem lines_blockC {p : List Char × List Char} (hn : ('\n' : Char) ∉ p.1) :
    splitCh '\n' (blockC p) = headerC p.1 :: splitCh '\n' p.2 := by
  unfold blockC
  rw [splitCh_append]
  rw [splitCh_no_sep '\n' (headerC p.1) (fun c hc he => nl_not_mem_headerC hn (he ▸ hc))]
  rfl

theorem splitCh_nl_cons (x : List Char) :
    splitCh '\n' ('\n' :: x) = [] :: splitCh '\n' x := by
  simp [splitCh]

theorem lines_combineC_cons {p q : List Char × List Char}
    {rest : List (List Char × List Char)} (hn : ('\n' : Char) ∉ p.1) :
    splitCh '\n' (combineC (p :: q :: rest)) =
      (headerC p.1 :: splitCh '\n' p.2) ++ [] :: splitCh '\n' (combineC (q :: rest)) := by
  have hc : combineC (p :: q :: rest) =
      blockC p ++ '\n' :: ('\n' :: combineC (q :: rest)) := by
    simp only [combineC, List.map_cons, joinSep]
    simp
  rw [hc, splitCh_append, lines_blockC hn, splitCh_nl_cons]

theorem parse_groupsOf : ∀ (specs : List (List Char × List Char)),
    (∀ p ∈ specs, ('\n' : Char) ∉ p.1) →
    (∀ p ∈ specs, ∀ line ∈ splitCh '\n' p.2, isHeaderLine line = none) →
    parseGroupsGo (splitCh '\n' (combineC specs)) none = groupsOf specs := by
  intro specs
  induction specs with
  | nil =>
    intro _ _
    rfl
  | cons p rest ih =>
    intro h1 h2
    cases rest with
    | nil =>
      rw [show combineC [p] = blockC p from rfl]
      rw [lines_blockC (h1 p (List.mem_cons_self _ _))]
      simp only [parseGroupsGo, isHeaderLine_headerC]
      rw [← List.append_nil (splitCh '\n' p.2),
        parseGroupsGo_absorb _ (h2 p (List.mem_cons_self _ _)) [] p.1 []]
      simp [parseGroupsGo, groupsOf]
    | cons q rest' =>
      rw [lines_combineC_cons (h1 p (List.mem_cons_self _ _))]
      rw [List.cons_append]
      simp only [parseGroupsGo, isHeaderLine_headerC]
      have hseg : ∀ l ∈ splitCh '\n' p.2 ++ [([] : List Char)], isHeaderLine l = none := by
        intro l hl
        rcases List.mem_append.mp hl with hl | hl
        · exact h2 p (List.mem_cons_self _ _) l hl
        · simp only [List.mem_singleton] at hl
          subst hl
          rfl
      have hassoc : splitCh '\n' p.2 ++ ([] :: splitCh '\n' (combineC (q :: rest'))) =
          (splitCh '\n' p.2 ++ [[]]) ++ splitCh '\n' (combineC (q :: rest')) := by
        simp
      rw [hassoc, parseGroupsGo_absorb _ hseg _ p.1 []]
      have hL' : ∃ T, splitCh '\n' (combineC (q :: rest')) = headerC q.1 :: T := by
        cases rest' with
        | nil =>
          refine ⟨splitCh '\n' q.2, ?_⟩
          rw [show combineC [q] = blockC q from rfl,
            lines_blockC (h1 q (by simp))]
        | cons r rs =>
          refine ⟨splitCh '\n' q.2 ++ [] :: splitCh '\n' (combineC (r :: rs)), ?_⟩
          rw [lines_combineC_cons (h1 q (by simp))]
          rw [List.cons_append]
      obtain ⟨T, hT⟩ := hL'
      rw [hT]
      simp only [parseGroupsGo, isHeaderLine_headerC]
      have hIH := ih (fun x hx => h1 x (List.mem_cons_of_mem _ hx))
        (fun x hx => h2 x (List.mem_cons_of_mem _ hx))
      rw [hT] at hIH
      simp only [parseGroupsGo, isHeaderLine_headerC] at hIH
      rw [hIH]
      simp [groupsOf]

theorem dropTrailingEmpty_concat (l : List (List Char)) :
    dropTrailingEmpty (l ++ [[]]) = l := by
  unfold dropTrailingEmpty
  rw [if_pos (List.getLast?_concat l), List.dropLast_concat]

theorem finalize_groupsOf : ∀ specs : List (List Char × List Char),
    finalizeGroups (groupsOf specs) = specs := by
  intro specs
  induction specs with
  | nil => rfl
  | cons p rest ih =>
    cases rest with
    | nil =>
      show [(p.1, joinCh '\n' (splitCh '\n' p.2))] = [p]
      rw [joinCh_splitCh]
    | cons q rest' =>
      have hg : groupsOf (p :: q :: rest') =
          (p.1, splitCh '\n' p.2 ++ [[]]) :: groupsOf (q :: rest') := rfl
      rw [hg]
      obtain ⟨h, t, hht⟩ : ∃ h t, groupsOf (q :: rest') = h :: t := by
        cases rest' with
        | nil => exact ⟨_, _, rfl⟩
        | cons r rs => exact ⟨_, _, rfl⟩
      rw [hht]
      show (p.1, joinCh '\n' (dropTrailingEmpty (splitCh '\n' p.2 ++ [[]]))) ::
          finalizeGroups (h :: t) = p :: q :: rest'
      rw [dropTrailingEmpty_concat, joinCh_splitCh, ← hht, ih]

theorem map_sum_single : ∀ (L : List (List Char × List Char)),
    (L.map Prod.fst).Nodup → ∀ (f : List Char × List Char → Nat)
    (x : List Char × List Char), x ∈ L → f x = 1 →
    (∀ y ∈ L, y.1 ≠ x.1 → f y = 0) → (L.map f).sum = 1 := by
  intro L
  induction L with
  | nil =>
    intro _ f x hx
    cases hx
  | cons a L ih =>
    intro hnd f x hx hfx hf0
    rcases List.mem_cons.mp hx with hax | hx'
    · subst hax
      simp only [List.map_cons, List.sum_cons]
      have hrest : (L.map f).sum = 0 := by
        apply List.sum_eq_zero
        intro n hn
        rcases List.mem_map.mp hn with ⟨y, hy, rfl⟩
        refine hf0 y (List.mem_cons_of_mem _ hy) (fun hEq => ?_)
        exact (List.nodup_cons.mp hnd).1 (hEq ▸ List.mem_map_of_mem Prod.fst hy)
      rw [hfx, hrest]
    · have ha0 : f a = 0 := by
        refine hf0 a (List.mem_cons_self _ _) (fun hEq => ?_)
        exact (List.nodup_cons.mp hnd).1 (hEq ▸ List.mem_map_of_mem Prod.fst hx')
      simp only [List.map_cons, List.sum_cons, ha0]
      rw [ih (List.nodup_cons.mp hnd).2 f x hx' hfx
        (fun y hy h => hf0 y (List.mem_cons_of_mem _ hy) h)]

/-! ## Claim C7: the delimiter round-trip itself -/

/-- C7 (counterexample): a spec whose content is its own delimiter header
makes the combined text contain the header twice (the claim demands
exactly N = 1 occurrences), and splitting no longer recovers the original
content. -/
theorem combine_specs_delimiter_cex :
    countOccs (headerC "a.docx".data)
        (_combine_specs [("a.docx", "===== FILE: a.docx =====")]).data = 2
    ∧ splitCombined (_combine_specs [("a.docx", "===== FILE: a.docx =====")]) ≠
        [("a.docx", "===== FILE: a.docx =====")] := by
  refine ⟨by decide, by decide⟩

/-- C7 (amended): for specs with distinct filenames, provided no filename
contains a newline, no delimiter header of any spec occurs as a substring
of any content or of another file's header, and no content line is itself
delimiter-header-shaped, the combined text built by `_combine_specs`
contains each spec's header `===== FILE: <filename> =====` exactly once
(hence exactly N delimiter headers in total), and splitting the combined
text on the delimiter headers recovers exactly the N original
(filename, content) pairs in their original order. -/
theorem combine_specs_round_trip (specs : List (String × String))
    (hnd : (specs.map Prod.fst).Nodup)
    (hnl : ∀ p ∈ specs, ('\n' : Char) ∉ p.1.data)
    (hsub : ∀ p ∈ specs, ∀ q ∈ specs, containsSub (headerC p.1.data) q.2.data = false)
    (hhdr : ∀ p ∈ specs, ∀ q ∈ specs, p.1 ≠ q.1 →
        containsSub (headerC p.1.data) (headerC q.1.data) = false)
    (hline : ∀ p ∈ specs, ∀ line ∈ splitCh '\n' p.2.data, isHeaderLine line = none) :
    (∀ p ∈ specs, countOccs (headerC p.1.data) (_combine_specs specs).data = 1)
    ∧ splitCombined (_combine_specs specs) = specs := by
  have h1' : ∀ p ∈ specs.map (fun s : String × String => (s.1.data, s.2.data)),
      ('\n' : Char) ∉ p.1 := by
    intro p hp
    rcases List.mem_map.mp hp with ⟨q, hq, rfl⟩
    exact hnl q hq
  have h2' : ∀ p ∈ specs.map (fun s : String × String => (s.1.data, s.2.data)),
      ∀ line ∈ splitCh '\n' p.2, isHeaderLine line = none := by
    intro p hp
    rcases List.mem_map.mp hp with ⟨q, hq, rfl⟩
    exact hline q hq
  constructor
  · intro p hp
    have hdrnl : ('\n' : Char) ∉ headerC p.1.data := nl_not_mem_headerC (hnl p hp)
    have hdrne : headerC p.1.data ≠ [] := headerC_ne_nil _
    have hdata : (_combine_specs specs).data =
        combineC (specs.map (fun s => (s.1.data, s.2.data))) := rfl
    rw [hdata, combineC, countOccs_joinSep hdrnl hdrne, List.map_map]
    refine map_sum_single _ ?_ (fun q => countOccs (headerC p.1.data) (blockC q))
      (p.1.data, p.2.data) (List.mem_map_of_mem _ hp) ?_ ?_
    · have : (specs.map (fun s : String × String => (s.1.data, s.2.data))).map Prod.fst =
          (specs.map Prod.fst).map String.data := by
        simp [List.map_map]
      rw [this]
      exact hnd.map (fun a b h => stringData_injective h)
    · show countOccs (headerC p.1.data) (blockC (p.1.data, p.2.data)) = 1
      unfold blockC
      rw [countOccs_split hdrnl hdrne, countOccs_self hdrne,
        countOccs_eq_zero_of_not_sub (hsub p hp p hp)]
    · intro y hy hne
      rcases List.mem_map.mp hy with ⟨q, hq, rfl⟩
      have hq1 : p.1 ≠ q.1 := by
        intro hEq
        exact hne (by rw [hEq])
      show countOccs (headerC p.1.data) (blockC (q.1.data, q.2.data)) = 0
      unfold blockC
      rw [countOccs_split hdrnl hdrne,
        countOccs_eq_zero_of_not_sub (hhdr p hp q hq hq1),
        countOccs_eq_zero_of_not_sub (hsub p hp q hq)]
  · unfold splitCombined
    have hdata : (_combine_specs specs).data =
        combineC (specs.map (fun s => (s.1.data, s.2.data))) := rfl
    rw [hdata, parse_groupsOf _ h1' h2', finalize_groupsOf, List.map_map]
    have : ∀ s ∈ specs, ((fun g : List Char × List Char => (String.mk g.1, String.mk g.2)) ∘
        (fun s : String × String => (s.1.data, s.2.data))) s = id s := by
      intro s _
      cases s with
      | mk a b =>
        cases a
        cases b
        rfl
    rw [List.map_congr_left this, List.map_id]

/-- Witness for the amended C7 at two concrete specs (one content holding
an internal newline). -/
theorem combine_specs_round_trip_witness :
    splitCombined (_combine_specs [("a.docx", "Alpha"), ("b.docx", "Beta\nGamma")]) =
      [("a.docx", "Alpha"), ("b.docx", "Beta\nGamma")]
    ∧ countOccs (headerC "a.docx".data)
        (_combine_specs [("a.docx", "Alpha"), ("b.docx", "Beta\nGamma")]).data = 1 := by
  have h := combine_specs_round_trip [("a.docx", "Alpha"), ("b.docx", "Beta\nGamma")]
    (by decide) (by decide) (by decide) (by decide) (by decide)
  exact ⟨h.2, h.1 ("a.docx", "Alpha") (by decide)⟩

/-- C8 (counterexample): two different matches of the same placeholder
pattern on the same line survive deduplication, because the placeholder
detector's key is the matched text.  On the line
`[INSERT A] [INSERT B]` the output holds two records that agree in
(filename, line, type), refuting the claim that both pattern families
collapse matches identical in that triple. -/
theorem detect_placeholders_dedup_cex :
    detect_placeholders reFinditer "[INSERT A] [INSERT B]" "spec.docx" =
      [⟨"spec.docx", 1, "Bracketed placeholder", "[INSERT A]", "[INSERT A] [INSERT B]"⟩,
       ⟨"spec.docx", 1, "Bracketed placeholder", "[INSERT B]", "[INSERT A] [INSERT B]"⟩]
    ∧ ¬ (((detect_placeholders reFinditer "[INSERT A] [INSERT B]" "spec.docx").map
        (fun a => (a.filename, a.line, a.type))).Nodup) := by
  refine ⟨by decide, by decide⟩

end SpecCritic
